import Mathlib

/-!
# gocardless-go: request construction, dispatch and resource operations

A shallow embedding of `client.go`, `subscription.go`, `payout.go` and
`redirect.go`.

* Go's `error` interface is the type `GoError`.
* Effects are explicit: a `World` carries the random source read by the UUID
  generator, the requests handed to the HTTP transport and the responses
  handed to the decoder.
* What the code takes from outside `src/` is a parameter: the standard-library
  functions and the package declarations of other files are the fields of
  `Env`; the types `Date`, `Customer` and `Meta`, declared in other files of
  the package, are type parameters.
* The context argument `ctx` only carries cancellation and is left out.
-/

namespace Gocardless

/-! ## Errors -/

/-- A value of Go's `error` interface: either made by `errors.New` with a text,
or a value of another dynamic type with its message. -/
inductive GoError where
  | errorsNew (text : String)
  | other (dynamicType : String) (text : String)
  deriving DecidableEq, Repr

/-- The method `Error()` of an error value. -/
def GoError.Error : GoError → String
  | .errorsNew text => text
  | .other _ text => text

/-! ## Constants of `net/http` -/

def MethodGet : String := "GET"
def MethodPost : String := "POST"
def MethodPut : String := "PUT"
def MethodPatch : String := "PATCH"
def MethodDelete : String := "DELETE"
def StatusTooManyRequests : Int := 429

/-! ## Constants of `client.go` -/

def apiVersion : String := "2015-07-06"
def baseLiveURL : String := "https://api.gocardless.com/"
def baseSandboxURL : String := "https://api-sandbox.gocardless.com/"

/-! ## HTTP headers (`net/http`, `net/textproto`) -/

/-- The bytes `textproto` accepts in a header field name: the token characters
of RFC 7230. -/
def validHeaderFieldByte (c : Char) : Bool :=
  c.isAlphanum ||
    [ '!', '#', '$', '%', '&', Char.ofNat 39, '*', '+', '-', '.', '^', '_',
      Char.ofNat 96, '|', '~' ].contains c

/-- The loop of `textproto.canonicalMIMEHeaderKey`: upper case for the first
letter and for every letter after a dash, lower case for the others. -/
def canonicalLoop : Bool → List Char → List Char
  | _, [] => []
  | upper, c :: cs =>
    (if upper then c.toUpper else c.toLower) :: canonicalLoop (c == '-') cs

/-- The function `textproto.CanonicalMIMEHeaderKey`: a name holding a byte that
is not a token character is returned unchanged. -/
def CanonicalMIMEHeaderKey (s : String) : String :=
  if s.data.all validHeaderFieldByte then String.mk (canonicalLoop true s.data) else s

/-- A `http.Header`: the values in the order they were added, each under its
canonical key. -/
abbrev Header := List (String × String)

/-- The method `Header.Add`: append the value under the canonical key. -/
def Header.Add (h : Header) (key value : String) : Header :=
  h ++ [(CanonicalMIMEHeaderKey key, value)]

/-- The method `Header.Values`: all values stored under the canonical key. -/
def Header.Values (h : Header) (key : String) : List String :=
  (h.filter (fun kv => kv.1 == CanonicalMIMEHeaderKey key)).map (fun kv => kv.2)

/-! ## Requests, responses, transport -/

/-- The parts of a `http.Request` the client sets. `URL` is the string form of
the parsed URL the request carries. -/
structure Request where
  Method : String
  URL : String
  Body : List Nat
  Header : Header
  deriving DecidableEq, Repr

/-- The parts of a `http.Response` the client reads. -/
structure Response where
  StatusCode : Int
  Body : List Nat
  deriving DecidableEq, Repr

/-- A `http.Client`: its method `Do` sends one request and gives back a
response or an error. -/
structure HTTPClient where
  Do : Request → Except GoError Response

/-! ## UUIDs (`github.com/satori/go.uuid`) -/

/-- A UUID is sixteen bytes. -/
abbrev UUID := Fin 16 → Fin 256

/-- The nil UUID, all bytes zero: what `NewV4` returns next to an error. -/
def UUID.Nil : UUID := fun _ => 0

/-- The method `SetVersion`: the high nibble of byte 6 becomes the version. -/
def UUID.SetVersion (u : UUID) (v : Fin 16) : UUID :=
  fun i => if i = 6 then ⟨(u 6).val % 16 + v.val * 16, by omega⟩ else u i

/-- The method `SetVariant` for the RFC 4122 variant: the two high bits of
byte 8 become `10`. -/
def UUID.SetVariant (u : UUID) : UUID :=
  fun i => if i = 8 then ⟨(u 8).val % 64 + 128, by omega⟩ else u i

def hextable : List Char :=
  ['0', '1', '2', '3', '4', '5', '6', '7', '8', '9', 'a', 'b', 'c', 'd', 'e', 'f']

def hexDigit (n : Nat) : Char := hextable.getD n '0'

/-- Two lower-case hexadecimal digits for one byte, as `hex.Encode` writes. -/
def hexByte (b : Fin 256) : List Char := [hexDigit (b.val / 16), hexDigit (b.val % 16)]

/-- The method `UUID.String`: the canonical form
`xxxxxxxx-xxxx-xxxx-xxxx-xxxxxxxxxxxx`. -/
def UUID.String (u : UUID) : String :=
  String.mk
    (hexByte (u 0) ++ hexByte (u 1) ++ hexByte (u 2) ++ hexByte (u 3) ++ ['-'] ++
      hexByte (u 4) ++ hexByte (u 5) ++ ['-'] ++
      hexByte (u 6) ++ hexByte (u 7) ++ ['-'] ++
      hexByte (u 8) ++ hexByte (u 9) ++ ['-'] ++
      hexByte (u 10) ++ hexByte (u 11) ++ hexByte (u 12) ++ hexByte (u 13) ++
      hexByte (u 14) ++ hexByte (u 15))

/-! ## The world a call runs in -/

/-- The state outside the client. `randRead k` is the outcome of the `k`-th
read of sixteen bytes from the random source (`none`: the read fails), `reads`
counts the reads made, `sent` lists the requests handed to the transport and
`bound` the responses handed to the decoder, oldest first. -/
structure World where
  randRead : Nat → Option UUID
  reads : Nat
  sent : List Request
  bound : List Response

/-- The generator `uuid.NewV4`: one read of the random source. A failed read
gives the nil UUID and an error; otherwise version 4 and the RFC 4122 variant
are set on the bytes read. The Boolean says whether an error is returned. -/
def NewV4 (w : World) : (UUID × Bool) × World :=
  match w.randRead w.reads with
  | none => ((UUID.Nil, true), { w with reads := w.reads + 1 })
  | some u => (((u.SetVersion 4).SetVariant, false), { w with reads := w.reads + 1 })

/-! ## Resource records -/

/-- A `map[string]string` field: `none` is the nil map of a record built
without one, `some m` a map with entry `m k` under key `k`. -/
abbrev Metadata := Option (String → Option String)

/-- A `time.Time`, as nanoseconds since the epoch. -/
abbrev Time := Int

/-- A `float64`, as its bit pattern. -/
abbrev float64 := Nat

structure subscriptionLinks where
  MandateID : String := ""

structure subscriptionPayment (Date : Type) where
  ChargeDate : Option Date := none
  Amount : Int := 0

/-- The record `Subscription` of `subscription.go`; the defaults are Go's zero
values. -/
structure Subscription (Date : Type) where
  ID : String := ""
  CreatedAt : Option Time := none
  Amount : Int := 0
  Currency : String := ""
  Status : String := ""
  Name : String := ""
  StartDate : Option Date := none
  Interval : Int := 0
  Count : Int := 0
  IntervalUnit : String := ""
  DayOfMonth : Int := 0
  Month : Int := 0
  PaymentReference : Int := 0
  AppFee : Int := 0
  UpcomingPayments : List (subscriptionPayment Date) := []
  Metadata : Metadata := none
  Links : subscriptionLinks := {}
  Retry : Bool := false

/-- The wrapper of `subscription.go`; its one field has the JSON key
`subscriptions`. -/
structure subscriptionWrapper (Date : Type) where
  Subscription : Option (Subscription Date) := none

structure SubscriptionListResponse (Date Meta : Type) where
  Subscriptions : List (Subscription Date)
  Meta : Meta

structure payoutLinks where
  CreditorID : String := ""
  CreditorBankID : String := ""

structure fxInfo where
  EstimatedRate : float64 := 0
  Rate : float64 := 0
  Amount : Int := 0
  Currency : String := ""

/-- The record `Payout` of `payout.go`. -/
structure Payout (Date : Type) where
  ID : String := ""
  Amount : Int := 0
  ArrivalDate : Option Date := none
  DeductedFees : Int := 0
  Currency : String := ""
  CreatedAt : Option Time := none
  PayoutType : String := ""
  Reference : String := ""
  Status : String := ""
  FX : fxInfo := {}
  TaxCurrency : String := ""
  Metadata : Metadata := none
  Links : payoutLinks := {}

/-- The wrapper of `payout.go`; its one field has the JSON key `payouts`. -/
structure payoutWrapper (Date : Type) where
  Payout : Option (Payout Date) := none

structure PayoutListResponse (Date Meta : Type) where
  Payouts : List (Payout Date)
  Meta : Meta

structure redirectLinks where
  CreditorID : String := ""
  CustomerID : String := ""
  CustomerBankAccountID : String := ""
  MandateID : String := ""

/-- The record `Redirect` of `redirect.go`. -/
structure Redirect (Customer : Type) where
  ID : String := ""
  SessionToken : String := ""
  SuccessRedirectURL : String := ""
  RedirectURL : String := ""
  Description : String := ""
  Scheme : String := ""
  CreatedAt : Option Time := none
  Customer : Customer
  Links : redirectLinks := {}
  Metadata : Metadata := none

/-- The wrapper of `redirect.go`; its one field has the JSON key
`redirect_flows`. -/
structure redirectWrapper (Customer : Type) where
  Redirect : Option (Redirect Customer) := none

def subscriptionEndpoint : String := "subscriptions"
def payoutEndpoint : String := "payouts"
def redirectEndpoint : String := "redirect_flows"

/-! ## Values of type `interface{}` -/

/-- The values the operations pass as request body and as destination: the nil
interface, a string, a `map[string]string`, a `map[string]interface{}` literal
given by its entries, and pointers to the wrappers and list responses. -/
inductive Any (Date Customer Meta : Type) where
  | nil
  | string (s : String)
  | stringMap (m : Metadata)
  | anyMap (entries : List (String × Any Date Customer Meta))
  | subscriptionWrapper (w : subscriptionWrapper Date)
  | payoutWrapper (w : payoutWrapper Date)
  | redirectWrapper (w : redirectWrapper Customer)
  | SubscriptionListResponse (l : SubscriptionListResponse Date Meta)
  | PayoutListResponse (l : PayoutListResponse Date Meta)

/-- The top-level keys of the JSON object a value is encoded as: the keys of a
map literal, the JSON keys in the struct tags of a wrapper or list response.
`none` for the values that are not such an object. -/
def Any.jsonKeys {Date Customer Meta : Type} : Any Date Customer Meta → Option (List String)
  | .anyMap entries => some (entries.map (fun kv => kv.1))
  | .subscriptionWrapper _ => some ["subscriptions"]
  | .payoutWrapper _ => some ["payouts"]
  | .redirectWrapper _ => some ["redirect_flows"]
  | .SubscriptionListResponse _ => some ["subscriptions", "meta"]
  | .PayoutListResponse _ => some ["payouts", "meta"]
  | _ => none

/-- The value stored under a key of a map literal. -/
def Any.lookup {Date Customer Meta : Type} (key : String) :
    Any Date Customer Meta → Option (Any Date Customer Meta)
  | .anyMap entries => (entries.find? (fun kv => kv.1 == key)).map (fun kv => kv.2)
  | _ => none

/-! ## What the code takes from outside `src/` -/

/-- An environment selector. The type `Environment` is declared in another file
of the package; the client prints it with `%s`, it is a string type. -/
abbrev Environment := String

/-- The library functions and the package declarations the client calls.

* `InvalidMethodError`: the package constant holding the text of the
  invalid-method error.
* `toUpper`: `strings.ToUpper`.
* `jsonMarshal`: `json.Marshal`.
* `requestError`: the checks of `http.NewRequestWithContext` on the method and
  the URL; `none` when the request is accepted.
* `parsedURL`: the URL `url.Parse` makes of a raw string, in its string form
  `u.String()`: the library writes it anew, so that a space in the path comes
  out as `%20` and the scheme in lower case.
* `bind`: `newResponse(resp).bind(dst)`, the decoded destination and the error.
-/
structure Env (Date Customer Meta : Type) where
  InvalidMethodError : String
  toUpper : String → String
  jsonMarshal : Any Date Customer Meta → Except GoError (List Nat)
  requestError : String → String → Option GoError
  parsedURL : String → String
  bind : Response → Any Date Customer Meta → Any Date Customer Meta × Option GoError

/-- The function `http.NewRequestWithContext`: when the checks pass, a request
with the method (`GET` for the empty method), the URL parsed from the raw
string, the body and an empty header. -/
def NewRequestWithContext {Date Customer Meta : Type} (env : Env Date Customer Meta)
    (method url : String) (data : List Nat) : Except GoError Request :=
  match env.requestError method url with
  | some e => .error e
  | none =>
    .ok { Method := if method = "" then "GET" else method, URL := env.parsedURL url,
          Body := data, Header := [] }

/-! ## `client.go` -/

/-- The struct `Client`. -/
structure Client where
  AccessToken : String
  RemoteURL : String
  httpClient : HTTPClient

/-- The constructor `NewClientWithHTTPClient`. `log.Fatalf` prints its message
and ends the process: that outcome is `Except.error` with the message, and no
client is returned. -/
def NewClientWithHTTPClient (SandboxEnvironment LiveEnvironment : Environment)
    (hc : HTTPClient) (accessToken : String) (env : Environment) : Except String Client :=
  let c : Client := { AccessToken := accessToken, RemoteURL := "", httpClient := hc }
  if env = SandboxEnvironment then
    .ok { c with RemoteURL := baseSandboxURL }
  else if env = LiveEnvironment then
    .ok { c with RemoteURL := baseLiveURL }
  else
    .error ("Invalid environment " ++ env ++ ", use one of (" ++ SandboxEnvironment ++ ", " ++
      LiveEnvironment ++ ")")

/-- The constructor `NewClient`; `zeroHTTPClient` is the value `&http.Client{}`. -/
def NewClient (SandboxEnvironment LiveEnvironment : Environment) (zeroHTTPClient : HTTPClient)
    (accessToken : String) (env : Environment) : Except String Client :=
  NewClientWithHTTPClient SandboxEnvironment LiveEnvironment zeroHTTPClient accessToken env

/-- The method `setDefaultHeaders`. -/
def Client.setDefaultHeaders (c : Client) (req : Request) : Request :=
  let h := req.Header.Add "Authorization" ("Bearer " ++ c.AccessToken)
  let h := h.Add "GoCardless-Version" apiVersion
  let h := h.Add "Accept" "application/json"
  let h := h.Add "Content-Type" "application/json"
  { req with Header := h }

section
variable {Date Customer Meta : Type}

/-- The method `newRequest`. The error of `json.Marshal` and the error of
`uuid.NewV4` are dropped, as in the source. -/
def Client.newRequest (env : Env Date Customer Meta) (c : Client) (path method : String)
    (body : Any Date Customer Meta) (w : World) : Except GoError Request × World :=
  if env.toUpper method = MethodPatch then
    (.error (.errorsNew env.InvalidMethodError), w)
  else
    let url := c.RemoteURL ++ path
    let bs : List Nat :=
      match body with
      | .nil => []
      | b =>
        match env.jsonMarshal b with
        | .ok bytes => bytes
        | .error _ => []
    match NewRequestWithContext env method url bs with
    | .error err => (.error err, w)
    | .ok req =>
      let req := c.setDefaultHeaders req
      if method = MethodPost then
        let r := NewV4 w
        (.ok { req with Header := req.Header.Add "Idempotency-Key" r.1.1.String }, r.2)
      else
        (.ok req, w)

/-- What a call leaves behind: the error returned (`none` for nil), the
destination value and the world. -/
structure Outcome (Date Customer Meta : Type) where
  err : Option GoError
  dst : Any Date Customer Meta
  world : World

/-- The method `makeRequest`. -/
def Client.makeRequest (env : Env Date Customer Meta) (c : Client) (path method : String)
    (body dst : Any Date Customer Meta) (w : World) : Outcome Date Customer Meta :=
  match c.newRequest env path method body w with
  | (.error err, w1) => { err := some err, dst := dst, world := w1 }
  | (.ok req, w1) =>
    let w2 : World := { w1 with sent := w1.sent ++ [req] }
    match c.httpClient.Do req with
    | .error err => { err := some err, dst := dst, world := w2 }
    | .ok resp =>
      if resp.StatusCode = StatusTooManyRequests then
        { err := some (.errorsNew "StatusTooManyRequests"), dst := dst, world := w2 }
      else
        let r := env.bind resp dst
        { err := r.2, dst := r.1, world := { w2 with bound := w2.bound ++ [resp] } }

def Client.get (env : Env Date Customer Meta) (c : Client) (path : String)
    (dst : Any Date Customer Meta) (w : World) : Outcome Date Customer Meta :=
  c.makeRequest env path MethodGet .nil dst w

def Client.post (env : Env Date Customer Meta) (c : Client) (path : String)
    (body dst : Any Date Customer Meta) (w : World) : Outcome Date Customer Meta :=
  c.makeRequest env path MethodPost body dst w

def Client.put (env : Env Date Customer Meta) (c : Client) (path : String)
    (body dst : Any Date Customer Meta) (w : World) : Outcome Date Customer Meta :=
  c.makeRequest env path MethodPut body dst w

def Client.delete (env : Env Date Customer Meta) (c : Client) (path : String) (w : World) :
    Outcome Date Customer Meta :=
  c.makeRequest env path MethodDelete .nil .nil w

/-! ## `subscription.go`

The operations take the record itself where the source takes a pointer to it;
the value a call decodes into is in the `dst` of its outcome. -/

/-- The constructor `NewSubscription`: `Metadata` is left nil. -/
def NewSubscription (amount : Int) (currency intervalUnit mandateID : String) :
    Subscription Date :=
  { Amount := amount, Currency := currency, IntervalUnit := intervalUnit,
    Links := { MandateID := mandateID } }

/-- The method `Subscription.AddMetadata`: an assignment to an entry of the
map, which panics on the nil map. -/
def Subscription.AddMetadata (s : Subscription Date) (key value : String) :
    Except String (Subscription Date) :=
  match s.Metadata with
  | none => .error "assignment to entry in nil map"
  | some m => .ok { s with Metadata := some (fun k => if k = key then some value else m k) }

def Client.CreateSubscription (env : Env Date Customer Meta) (c : Client)
    (subscription : Subscription Date) (w : World) : Outcome Date Customer Meta :=
  let subscriptionReq : Any Date Customer Meta :=
    .subscriptionWrapper { Subscription := some subscription }
  c.post env subscriptionEndpoint subscriptionReq subscriptionReq w

def Client.GetSubscriptions [Inhabited Meta] (env : Env Date Customer Meta) (c : Client)
    (w : World) : (Option (SubscriptionListResponse Date Meta) × Option GoError) × World :=
  let list : Any Date Customer Meta :=
    .SubscriptionListResponse { Subscriptions := [], Meta := default }
  let out := c.get env subscriptionEndpoint list w
  match out.err, out.dst with
  | some err, _ => ((none, some err), out.world)
  | none, .SubscriptionListResponse l => ((some l, none), out.world)
  | none, _ => ((none, none), out.world)

def Client.GetSubscription (env : Env Date Customer Meta) (c : Client) (id : String)
    (w : World) : (Option (Subscription Date) × Option GoError) × World :=
  let wrapper : Any Date Customer Meta := .subscriptionWrapper {}
  let out := c.get env (subscriptionEndpoint ++ "/" ++ id) wrapper w
  match out.err, out.dst with
  | some err, _ => ((none, some err), out.world)
  | none, .subscriptionWrapper wr => ((wr.Subscription, none), out.world)
  | none, _ => ((none, none), out.world)

def Client.UpdateSubscription (env : Env Date Customer Meta) (c : Client)
    (subscription : Subscription Date) (w : World) : Outcome Date Customer Meta :=
  let subscriptionMeta : Any Date Customer Meta :=
    .anyMap [("subscriptions", .anyMap [("metadata", .stringMap subscription.Metadata)])]
  let subscriptionReq : Any Date Customer Meta :=
    .subscriptionWrapper { Subscription := some subscription }
  c.put env (subscriptionEndpoint ++ "/" ++ subscription.ID) subscriptionMeta subscriptionReq w

def Client.CancelSubscription (env : Env Date Customer Meta) (c : Client)
    (subscription : Subscription Date) (w : World) : Outcome Date Customer Meta :=
  let subscriptionMeta : Any Date Customer Meta :=
    .anyMap [("subscriptions", .anyMap [("metadata", .stringMap subscription.Metadata)])]
  let wrapper : Any Date Customer Meta :=
    .subscriptionWrapper { Subscription := some subscription }
  c.post env (subscriptionEndpoint ++ "/" ++ subscription.ID ++ "/actions/cancel")
    subscriptionMeta wrapper w

def Client.PauseSubscription (env : Env Date Customer Meta) (c : Client)
    (subscription : Subscription Date) (w : World) : Outcome Date Customer Meta :=
  let subscriptionMeta : Any Date Customer Meta :=
    .anyMap [("subscriptions", .anyMap [("metadata", .stringMap subscription.Metadata)])]
  let wrapper : Any Date Customer Meta :=
    .subscriptionWrapper { Subscription := some subscription }
  c.post env (subscriptionEndpoint ++ "/" ++ subscription.ID ++ "/actions/pause")
    subscriptionMeta wrapper w

def Client.ResumeSubscription (env : Env Date Customer Meta) (c : Client)
    (subscription : Subscription Date) (w : World) : Outcome Date Customer Meta :=
  let subscriptionMeta : Any Date Customer Meta :=
    .anyMap [("subscriptions", .anyMap [("metadata", .stringMap subscription.Metadata)])]
  let wrapper : Any Date Customer Meta :=
    .subscriptionWrapper { Subscription := some subscription }
  c.post env (subscriptionEndpoint ++ "/" ++ subscription.ID ++ "/actions/resume")
    subscriptionMeta wrapper w

/-! ## `payout.go` -/

/-- The method `Payout.AddMetadata`. -/
def Payout.AddMetadata (p : Payout Date) (key value : String) : Except String (Payout Date) :=
  match p.Metadata with
  | none => .error "assignment to entry in nil map"
  | some m => .ok { p with Metadata := some (fun k => if k = key then some value else m k) }

def Client.GetPayouts [Inhabited Meta] (env : Env Date Customer Meta) (c : Client)
    (w : World) : (Option (PayoutListResponse Date Meta) × Option GoError) × World :=
  let list : Any Date Customer Meta := .PayoutListResponse { Payouts := [], Meta := default }
  let out := c.get env payoutEndpoint list w
  match out.err, out.dst with
  | some err, _ => ((none, some err), out.world)
  | none, .PayoutListResponse l => ((some l, none), out.world)
  | none, _ => ((none, none), out.world)

def Client.GetPayout (env : Env Date Customer Meta) (c : Client) (id : String)
    (w : World) : (Option (Payout Date) × Option GoError) × World :=
  let wrapper : Any Date Customer Meta := .payoutWrapper {}
  let out := c.get env (payoutEndpoint ++ "/" ++ id) wrapper w
  match out.err, out.dst with
  | some err, _ => ((none, some err), out.world)
  | none, .payoutWrapper wr => ((wr.Payout, none), out.world)
  | none, _ => ((none, none), out.world)

def Client.UpdatePayout (env : Env Date Customer Meta) (c : Client)
    (payout : Payout Date) (w : World) : Outcome Date Customer Meta :=
  let payoutMeta : Any Date Customer Meta :=
    .anyMap [("payouts", .anyMap [("metadata", .stringMap payout.Metadata)])]
  let payoutReq : Any Date Customer Meta := .payoutWrapper { Payout := some payout }
  c.put env (payoutEndpoint ++ "/" ++ payout.ID) payoutMeta payoutReq w

/-! ## `redirect.go` -/

/-- The constructor `NewRedirect`: the prefilled customer is the zero value and
`Metadata` is left nil. -/
def NewRedirect [Inhabited Customer] (sessionToken redirectURL : String) : Redirect Customer :=
  { SessionToken := sessionToken, SuccessRedirectURL := redirectURL, Customer := default }

/-- The method `Redirect.AddMetadata`. -/
def Redirect.AddMetadata (r : Redirect Customer) (key value : String) :
    Except String (Redirect Customer) :=
  match r.Metadata with
  | none => .error "assignment to entry in nil map"
  | some m => .ok { r with Metadata := some (fun k => if k = key then some value else m k) }

def Client.CreateRedirect (env : Env Date Customer Meta) (c : Client)
    (redirect : Redirect Customer) (w : World) : Outcome Date Customer Meta :=
  let redirectReq : Any Date Customer Meta := .redirectWrapper { Redirect := some redirect }
  c.post env redirectEndpoint redirectReq redirectReq w

def Client.GetRedirect (env : Env Date Customer Meta) (c : Client) (id : String)
    (w : World) : (Option (Redirect Customer) × Option GoError) × World :=
  let wrapper : Any Date Customer Meta := .redirectWrapper {}
  let out := c.get env (redirectEndpoint ++ "/" ++ id) wrapper w
  match out.err, out.dst with
  | some err, _ => ((none, some err), out.world)
  | none, .redirectWrapper wr => ((wr.Redirect, none), out.world)
  | none, _ => ((none, none), out.world)

def Client.CompleteRedirect (env : Env Date Customer Meta) (c : Client)
    (redirect : Redirect Customer) (w : World) : Outcome Date Customer Meta :=
  let rdData : Any Date Customer Meta :=
    .anyMap [("data", .anyMap [("session_token", .string redirect.SessionToken)])]
  let redirectReq : Any Date Customer Meta := .redirectWrapper { Redirect := some redirect }
  c.post env (redirectEndpoint ++ "/" ++ redirect.ID ++ "/actions/complete") rdData redirectReq w

end

/-! ## What a call asks of the transport -/

/-- The bytes `newRequest` puts in a request for a body: nothing for the nil
body, else the encoding, or nothing when the encoder fails. -/
def Env.payload {Date Customer Meta : Type} (env : Env Date Customer Meta)
    (body : Any Date Customer Meta) : List Nat :=
  match body with
  | .nil => []
  | b =>
    match env.jsonMarshal b with
    | .ok bytes => bytes
    | .error _ => []

/-- Between the worlds `w` and `after` the client `c` asked for `method` on
`path` with `body`, once: either one request was handed to the transport, with
that method, the URL the library parses from `RemoteURL` followed by `path`,
and the bytes of `body`; or none was, the method being refused as `PATCH` or the request refused by
`http.NewRequestWithContext`. -/
def Requested {Date Customer Meta : Type} (env : Env Date Customer Meta) (c : Client)
    (w after : World) (method path : String) (body : Any Date Customer Meta) : Prop :=
  (after.sent = w.sent ∧
    (env.toUpper method = MethodPatch ∨ env.requestError method (c.RemoteURL ++ path) ≠ none)) ∨
  ∃ req, after.sent = w.sent ++ [req] ∧ req.Method = method ∧
    req.URL = env.parsedURL (c.RemoteURL ++ path) ∧ req.Body = env.payload body

/-- The object `{name: {"metadata": m}}` as a map literal. -/
def metadataOnly {Date Customer Meta : Type} (name : String) (m : Metadata) :
    Any Date Customer Meta :=
  .anyMap [(name, .anyMap [("metadata", .stringMap m)])]

/-! ## Syntax of version-4 UUID strings -/

/-- A hexadecimal digit, in either case. -/
def isHexChar (c : Char) : Bool :=
  c.isDigit || ('a' ≤ c && c ≤ 'f') || ('A' ≤ c && c ≤ 'F')

/-- The syntax of a version-4 UUID string: 36 characters, dashes at positions
8, 13, 18 and 23, hexadecimal digits elsewhere, the version digit `4` at
position 14 and a variant digit `8`, `9`, `a` or `b` at position 19. -/
def isUUIDv4String (s : String) : Bool :=
  match s.data with
  | a0 :: a1 :: a2 :: a3 :: a4 :: a5 :: a6 :: a7 :: d1 :: b0 :: b1 :: b2 :: b3 :: d2 ::
      v :: c1 :: c2 :: c3 :: d3 :: r :: e1 :: e2 :: e3 :: d4 ::
      f0 :: f1 :: f2 :: f3 :: f4 :: f5 :: f6 :: f7 :: f8 :: f9 :: f10 :: f11 :: [] =>
    [a0, a1, a2, a3, a4, a5, a6, a7, b0, b1, b2, b3, c1, c2, c3, e1, e2, e3,
      f0, f1, f2, f3, f4, f5, f6, f7, f8, f9, f10, f11].all isHexChar &&
    d1 == '-' && d2 == '-' && d3 == '-' && d4 == '-' && v == '4' &&
    ['8', '9', 'a', 'b', 'A', 'B'].contains r
  | _ => false

/-- The value of a hexadecimal digit of `hextable`. -/
def hexValue (c : Char) : Nat := hextable.indexOf c

/-! ## Values for the examples -/

/-- The one rewriting of `net/url` the examples meet: a space is written `%20`.
On the other URLs of the examples, which are lower-case ASCII with no space,
the library gives the raw string back. -/
def escapeSpaces : List Char → List Char
  | [] => []
  | c :: cs => if c = ' ' then '%' :: '2' :: '0' :: escapeSpaces cs else c :: escapeSpaces cs

/-- An environment for the examples: upper-casing of ASCII letters, an encoder
that writes the top-level keys of the value, no request refused, URLs with
their spaces escaped, a decoder that leaves the destination as it is. -/
def asciiEnv : Env Unit Unit Unit where
  InvalidMethodError := "invalid method"
  toUpper := fun s => String.mk (s.data.map Char.toUpper)
  jsonMarshal := fun v =>
    match v.jsonKeys with
    | some keys => .ok ((String.intercalate "," keys).data.map Char.toNat)
    | none => .ok []
  requestError := fun _ _ => none
  parsedURL := fun raw => String.mk (escapeSpaces raw.data)
  bind := fun _ dst => (dst, none)

/-- A transport answering every request with status 200 and an empty body. -/
def okTransport : HTTPClient where
  Do := fun _ => .ok { StatusCode := 200, Body := [] }

/-- A client of the live API over `okTransport`. -/
def liveClient : Client where
  AccessToken := "token"
  RemoteURL := baseLiveURL
  httpClient := okTransport

/-- A world where nothing was sent yet and every read of the random source
gives sixteen zero bytes. -/
def zeroWorld : World where
  randRead := fun _ => some (fun _ => 0)
  reads := 0
  sent := []
  bound := []

/-- A world where every read of the random source fails. -/
def failingWorld : World where
  randRead := fun _ => none
  reads := 0
  sent := []
  bound := []

/-- The request `liveClient` builds for `POST` on a path with no body, given the
idempotency key. -/
def postRequest (path key : String) : Request where
  Method := "POST"
  URL := "https://api.gocardless.com/" ++ path
  Body := []
  Header := [("Authorization", "Bearer token"), ("Gocardless-Version", "2015-07-06"),
    ("Accept", "application/json"), ("Content-Type", "application/json"),
    ("Idempotency-Key", key)]

/-- A transport answering every request with status 429. -/
def busyTransport : HTTPClient where
  Do := fun _ => .ok { StatusCode := 429, Body := [123, 125] }

/-- A transport failing on every request. -/
def downTransport : HTTPClient where
  Do := fun _ => .error (.other "*url.Error" "connection refused")

/-- A subscription with an identifier, an amount and one metadata entry. -/
def someSubscription : Subscription Unit :=
  { ID := "SB123", Amount := 1000, Currency := "GBP",
    Metadata := some (fun k => if k = "order" then some "42" else none) }

/-- A payout with an identifier and no metadata. -/
def somePayout : Payout Unit := { ID := "PO123", Amount := 500 }

/-- A redirect flow with an identifier and a session token. -/
def someRedirect : Redirect Unit :=
  { ID := "RE123", SessionToken := "SESS_1", Customer := () }

/-- A transport answering every request with status 500 and a body. -/
def brokenTransport : HTTPClient where
  Do := fun _ => .ok { StatusCode := 500, Body := [123, 125] }

/-- An environment as `asciiEnv`, with a decoder that fails on an empty body
and leaves the destination as it is. -/
def decodingEnv : Env Unit Unit Unit :=
  { asciiEnv with
    bind := fun resp dst =>
      if resp.Body = [] then (dst, some (.other "*json.SyntaxError" "unexpected end of JSON input"))
      else (dst, none) }

/-! ## Lemmas on request construction -/

section
variable {Date Customer Meta : Type}

theorem newRequest_error_of_patch (env : Env Date Customer Meta) (c : Client)
    (path method : String) (body : Any Date Customer Meta) (w : World)
    (h : env.toUpper method = MethodPatch) :
    c.newRequest env path method body w = (.error (.errorsNew env.InvalidMethodError), w) := by
  unfold Client.newRequest
  rw [if_pos h]

theorem newRequest_ok_cases (env : Env Date Customer Meta) (c : Client)
    (path method : String) (body : Any Date Customer Meta) (w w1 : World) (req : Request)
    (h : c.newRequest env path method body w = (.ok req, w1)) :
    env.toUpper method ≠ MethodPatch ∧
    env.requestError method (c.RemoteURL ++ path) = none ∧
    ∃ base : Request,
      base.Method = (if method = "" then "GET" else method) ∧
      base.URL = env.parsedURL (c.RemoteURL ++ path) ∧
      base.Body = env.payload body ∧
      base.Header = [] ∧
      ((method = MethodPost ∧ w1 = (NewV4 w).2 ∧
          req = { c.setDefaultHeaders base with
            Header := Header.Add (c.setDefaultHeaders base).Header "Idempotency-Key"
              (UUID.String (NewV4 w).1.1) }) ∨
        (method ≠ MethodPost ∧ w1 = w ∧ req = c.setDefaultHeaders base)) := by
  unfold Client.newRequest at h
  by_cases hp : env.toUpper method = MethodPatch
  · rw [if_pos hp] at h
    simp at h
  · rw [if_neg hp] at h
    refine ⟨hp, ?_⟩
    simp only [NewRequestWithContext] at h
    cases hre : env.requestError method (c.RemoteURL ++ path) with
    | some e =>
      rw [hre] at h
      simp at h
    | none =>
      rw [hre] at h
      refine ⟨rfl, ?_⟩
      by_cases hm : method = MethodPost
      · simp only [hm, if_true] at h
        simp only [Prod.mk.injEq, Except.ok.injEq] at h
        refine ⟨_, ?_, ?_, ?_, ?_, Or.inl ⟨hm, h.2.symm, h.1.symm⟩⟩
        · simp [hm]
        · simp
        · cases body <;> rfl
        · simp
      · simp only [if_neg hm] at h
        simp only [Prod.mk.injEq, Except.ok.injEq] at h
        refine ⟨_, rfl, rfl, ?_, rfl, Or.inr ⟨hm, h.2.symm, h.1.symm⟩⟩
        cases body <;> rfl

/-! ## Lemmas on headers -/

theorem canonical_Authorization : CanonicalMIMEHeaderKey "Authorization" = "Authorization" := by
  decide

theorem canonical_Version : CanonicalMIMEHeaderKey "GoCardless-Version" = "Gocardless-Version" := by
  decide

theorem canonical_Accept : CanonicalMIMEHeaderKey "Accept" = "Accept" := by decide

theorem canonical_ContentType : CanonicalMIMEHeaderKey "Content-Type" = "Content-Type" := by
  decide

theorem canonical_IdempotencyKey :
    CanonicalMIMEHeaderKey "Idempotency-Key" = "Idempotency-Key" := by decide

/-- The header `setDefaultHeaders` leaves on a request that had none. -/
theorem setDefaultHeaders_header (c : Client) (base : Request) (h : base.Header = []) :
    (c.setDefaultHeaders base).Header =
      [("Authorization", "Bearer " ++ c.AccessToken), ("Gocardless-Version", "2015-07-06"),
        ("Accept", "application/json"), ("Content-Type", "application/json")] := by
  simp [Client.setDefaultHeaders, Header.Add, h, canonical_Authorization, canonical_Version,
    canonical_Accept, canonical_ContentType, apiVersion]

/-- The header of a request `newRequest` built: the four default entries, and
after them the idempotency key when the method is `POST`. -/
theorem newRequest_header (env : Env Date Customer Meta) (c : Client)
    (path method : String) (body : Any Date Customer Meta) (w w1 : World) (req : Request)
    (h : c.newRequest env path method body w = (.ok req, w1)) :
    req.Header =
      [("Authorization", "Bearer " ++ c.AccessToken), ("Gocardless-Version", "2015-07-06"),
        ("Accept", "application/json"), ("Content-Type", "application/json")] ++
      (if method = MethodPost then [("Idempotency-Key", UUID.String (NewV4 w).1.1)] else []) := by
  obtain ⟨_, _, base, _, _, _, hh, hcase⟩ := newRequest_ok_cases env c path method body w w1 req h
  rcases hcase with ⟨hm, _, hreq⟩ | ⟨hm, _, hreq⟩
  · rw [hreq, if_pos hm]
    simp [Header.Add, setDefaultHeaders_header c base hh, canonical_IdempotencyKey]
  · rw [hreq, if_neg hm]
    simp [setDefaultHeaders_header c base hh]

/-! ## Lemmas on dispatch -/

theorem makeRequest_of_newRequest_error (env : Env Date Customer Meta) (c : Client)
    (path method : String) (body dst : Any Date Customer Meta) (w w1 : World) (e : GoError)
    (h : c.newRequest env path method body w = (.error e, w1)) :
    c.makeRequest env path method body dst w = { err := some e, dst := dst, world := w1 } := by
  unfold Client.makeRequest
  rw [h]

theorem makeRequest_of_newRequest_ok (env : Env Date Customer Meta) (c : Client)
    (path method : String) (body dst : Any Date Customer Meta) (w w1 : World) (req : Request)
    (h : c.newRequest env path method body w = (.ok req, w1)) :
    c.makeRequest env path method body dst w =
      match c.httpClient.Do req with
      | .error err => { err := some err, dst := dst, world := { w1 with sent := w1.sent ++ [req] } }
      | .ok resp =>
        if resp.StatusCode = StatusTooManyRequests then
          { err := some (.errorsNew "StatusTooManyRequests"), dst := dst,
            world := { w1 with sent := w1.sent ++ [req] } }
        else
          { err := (env.bind resp dst).2, dst := (env.bind resp dst).1,
            world := { w1 with sent := w1.sent ++ [req], bound := w1.bound ++ [resp] } } := by
  unfold Client.makeRequest
  rw [h]

/-- The method `newRequest` touches nothing of the world but the count of reads. -/
theorem newRequest_world (env : Env Date Customer Meta) (c : Client)
    (path method : String) (body : Any Date Customer Meta) (w : World) :
    (c.newRequest env path method body w).2.sent = w.sent ∧
    (c.newRequest env path method body w).2.bound = w.bound ∧
    (c.newRequest env path method body w).2.randRead = w.randRead := by
  unfold Client.newRequest
  by_cases hp : env.toUpper method = MethodPatch
  · simp [hp]
  · simp only [if_neg hp]
    cases NewRequestWithContext env method (c.RemoteURL ++ path) _ with
    | error e => simp
    | ok r =>
      by_cases hm : method = MethodPost
      · simp only [hm, if_true, NewV4]
        cases w.randRead w.reads <;> simp
      · simp [hm]

/-! ## Lemmas on UUID strings -/

theorem hexValue_hexDigit (n : Nat) (h : n < 16) : hexValue (hexDigit n) = n := by
  interval_cases n <;> decide

theorem isHexChar_hexDigit (n : Nat) (h : n < 16) : isHexChar (hexDigit n) = true := by
  interval_cases n <;> decide

theorem isHexChar_high (b : Fin 256) : isHexChar (hexDigit (b.val / 16)) = true :=
  isHexChar_hexDigit _ (by omega)

theorem isHexChar_low (b : Fin 256) : isHexChar (hexDigit (b.val % 16)) = true :=
  isHexChar_hexDigit _ (by omega)

theorem hexByte_injective (a b : Fin 256) (h : hexByte a = hexByte b) : a = b := by
  simp only [hexByte, List.cons.injEq, and_true] at h
  have h1 := congrArg hexValue h.1
  have h2 := congrArg hexValue h.2
  rw [hexValue_hexDigit _ (by omega), hexValue_hexDigit _ (by omega)] at h1 h2
  exact Fin.ext (by omega)

/-- The string of a UUID whose version nibble is 4 and whose variant bits are
`10` has the syntax of a version-4 UUID string. -/
theorem isUUIDv4String_String (u : UUID) (h6 : (u 6).val / 16 = 4)
    (h8 : (u 8).val / 16 = 8 ∨ (u 8).val / 16 = 9 ∨ (u 8).val / 16 = 10 ∨ (u 8).val / 16 = 11) :
    isUUIDv4String (UUID.String u) = true := by
  have hv : hexDigit ((u 6).val / 16) = '4' := by rw [h6]; decide
  have hr : ['8', '9', 'a', 'b', 'A', 'B'].contains (hexDigit ((u 8).val / 16)) = true := by
    rcases h8 with h | h | h | h <;> rw [h] <;> decide
  simp only [isUUIDv4String, UUID.String, hexByte, List.cons_append, List.nil_append,
    List.all_cons, List.all_nil, isHexChar_high, isHexChar_low, hv, hr, Bool.and_true,
    beq_self_eq_true, Bool.and_self]

theorem String_v4_valid (u : UUID) :
    isUUIDv4String (UUID.String (UUID.SetVariant (UUID.SetVersion u 4))) = true := by
  apply isUUIDv4String_String
  · simp only [UUID.SetVariant, UUID.SetVersion]
    simp
    omega
  · simp only [UUID.SetVariant, UUID.SetVersion]
    simp
    omega

/-- Different UUIDs have different strings. -/
theorem String_injective (u v : UUID) (h : UUID.String u = UUID.String v) : u = v := by
  have hb : ∀ a b : Fin 256, hexDigit (a.val / 16) = hexDigit (b.val / 16) →
      hexDigit (a.val % 16) = hexDigit (b.val % 16) → a = b := by
    intro a b h1 h2
    exact hexByte_injective a b (by simp [hexByte, h1, h2])
  have h := congrArg String.data h
  simp only [UUID.String] at h
  simp only [hexByte, List.cons_append, List.nil_append] at h
  simp only [List.cons.injEq] at h
  simp only [and_true, true_and] at h
  obtain ⟨a0, a1, b0, b1, c0, c1, d0, d1, e0, e1, f0, f1, g0, g1, h0, h1, i0, i1, j0, j1,
    k0, k1, l0, l1, m0, m1, n0, n1, o0, o1, p0, p1⟩ := h
  funext i
  fin_cases i
  · exact hb _ _ a0 a1
  · exact hb _ _ b0 b1
  · exact hb _ _ c0 c1
  · exact hb _ _ d0 d1
  · exact hb _ _ e0 e1
  · exact hb _ _ f0 f1
  · exact hb _ _ g0 g1
  · exact hb _ _ h0 h1
  · exact hb _ _ i0 i1
  · exact hb _ _ j0 j1
  · exact hb _ _ k0 k1
  · exact hb _ _ l0 l1
  · exact hb _ _ m0 m1
  · exact hb _ _ n0 n1
  · exact hb _ _ o0 o1
  · exact hb _ _ p0 p1

theorem String_ne_empty (u : UUID) : UUID.String u ≠ "" := by
  intro h
  have hd := congrArg String.data h
  simp only [UUID.String, hexByte, List.cons_append] at hd
  exact List.cons_ne_nil _ _ hd

/-- The idempotency key of a request built for `POST`. -/
theorem newRequest_post_key (env : Env Date Customer Meta) (c : Client)
    (path : String) (body : Any Date Customer Meta) (w w1 : World) (req : Request)
    (h : c.newRequest env path "POST" body w = (.ok req, w1)) :
    Header.Values req.Header "Idempotency-Key" = [UUID.String (NewV4 w).1.1] ∧
    w1 = (NewV4 w).2 := by
  have hh := newRequest_header env c path "POST" body w w1 req h
  obtain ⟨_, _, _, _, _, _, _, hcase⟩ := newRequest_ok_cases env c path "POST" body w w1 req h
  rcases hcase with ⟨_, hw, _⟩ | ⟨hp, _, _⟩
  · refine ⟨?_, hw⟩
    rw [hh]
    simp [MethodPost, Header.Values, canonical_IdempotencyKey, List.filter]
  · exact absurd rfl hp

theorem NewV4_of_read (w : World) (u : UUID) (h : w.randRead w.reads = some u) :
    (NewV4 w).1.1 = UUID.SetVariant (UUID.SetVersion u 4) := by
  simp [NewV4, h]

theorem NewV4_reads (w : World) : (NewV4 w).2.reads = w.reads + 1 := by
  unfold NewV4
  cases w.randRead w.reads <;> rfl

/-! ## What `makeRequest` hands to the transport -/

/-- Method, URL and body of a request `newRequest` built. -/
theorem newRequest_ok_fields (env : Env Date Customer Meta) (c : Client)
    (path method : String) (body : Any Date Customer Meta) (w w1 : World) (req : Request)
    (h : c.newRequest env path method body w = (.ok req, w1)) :
    req.Method = (if method = "" then "GET" else method) ∧
    req.URL = env.parsedURL (c.RemoteURL ++ path) ∧ req.Body = env.payload body := by
  obtain ⟨_, _, base, h1, h2, h3, _, hcase⟩ :=
    newRequest_ok_cases env c path method body w w1 req h
  rcases hcase with ⟨_, _, hreq⟩ | ⟨_, _, hreq⟩ <;>
    · rw [hreq]
      exact ⟨h1, h2, h3⟩

/-- When `newRequest` fails the method is refused as `PATCH` or the request is
refused by `http.NewRequestWithContext`. -/
theorem newRequest_error_cases (env : Env Date Customer Meta) (c : Client)
    (path method : String) (body : Any Date Customer Meta) (w w1 : World) (e : GoError)
    (h : c.newRequest env path method body w = (.error e, w1)) :
    env.toUpper method = MethodPatch ∨ env.requestError method (c.RemoteURL ++ path) ≠ none := by
  by_cases hp : env.toUpper method = MethodPatch
  · exact Or.inl hp
  · right
    intro hre
    unfold Client.newRequest at h
    rw [if_neg hp] at h
    simp only [NewRequestWithContext, hre] at h
    by_cases hm : method = MethodPost
    · simp [hm] at h
    · simp [hm] at h

/-- The requests `makeRequest` leaves in the log: those that were there, and
after them the request it built, if it built one. -/
theorem makeRequest_sent (env : Env Date Customer Meta) (c : Client)
    (path method : String) (body dst : Any Date Customer Meta) (w : World) :
    (c.makeRequest env path method body dst w).world.sent =
      w.sent ++
        (match (c.newRequest env path method body w).1 with
        | .ok req => [req]
        | .error _ => []) := by
  have hs := (newRequest_world env c path method body w).1
  cases hn : c.newRequest env path method body w with
  | mk res w1 =>
    rw [hn] at hs
    simp only at hs
    cases res with
    | error e =>
      rw [makeRequest_of_newRequest_error env c path method body dst w w1 e hn]
      simp [hs]
    | ok req =>
      rw [makeRequest_of_newRequest_ok env c path method body dst w w1 req hn]
      cases hd : c.httpClient.Do req with
      | error e => simp [hs]
      | ok resp =>
        by_cases hst : resp.StatusCode = StatusTooManyRequests
        · simp [hst, hs]
        · simp [hst, hs]

theorem makeRequest_requested (env : Env Date Customer Meta) (c : Client)
    (path method : String) (body dst : Any Date Customer Meta) (w : World) (hm : method ≠ "") :
    Requested env c w (c.makeRequest env path method body dst w).world method path body := by
  have hs := makeRequest_sent env c path method body dst w
  cases hn : c.newRequest env path method body w with
  | mk res w1 =>
    rw [hn] at hs
    cases res with
    | error e =>
      left
      exact ⟨by simpa using hs, newRequest_error_cases env c path method body w w1 e hn⟩
    | ok req =>
      right
      obtain ⟨h1, h2, h3⟩ := newRequest_ok_fields env c path method body w w1 req hn
      rw [if_neg hm] at h1
      exact ⟨req, hs, h1, h2, h3⟩

/-! ## Lemmas on the operations -/

theorem GetSubscriptions_world [Inhabited Meta] (env : Env Date Customer Meta) (c : Client)
    (w : World) :
    (c.GetSubscriptions env w).2 =
      (c.get env "subscriptions" (.SubscriptionListResponse { Subscriptions := [], Meta := default })
        w).world := by
  unfold Client.GetSubscriptions
  simp only [subscriptionEndpoint]
  split <;> rfl

theorem GetSubscription_world (env : Env Date Customer Meta) (c : Client) (id : String)
    (w : World) :
    (c.GetSubscription env id w).2 =
      (c.get env ("subscriptions/" ++ id) (.subscriptionWrapper {}) w).world := by
  unfold Client.GetSubscription
  simp only [subscriptionEndpoint, String.append_assoc]
  split <;> rfl

theorem GetPayouts_world [Inhabited Meta] (env : Env Date Customer Meta) (c : Client)
    (w : World) :
    (c.GetPayouts env w).2 =
      (c.get env "payouts" (.PayoutListResponse { Payouts := [], Meta := default }) w).world := by
  unfold Client.GetPayouts
  simp only [payoutEndpoint]
  split <;> rfl

theorem GetPayout_world (env : Env Date Customer Meta) (c : Client) (id : String) (w : World) :
    (c.GetPayout env id w).2 = (c.get env ("payouts/" ++ id) (.payoutWrapper {}) w).world := by
  unfold Client.GetPayout
  simp only [payoutEndpoint, String.append_assoc]
  split <;> rfl

theorem GetRedirect_world (env : Env Date Customer Meta) (c : Client) (id : String)
    (w : World) :
    (c.GetRedirect env id w).2 =
      (c.get env ("redirect_flows/" ++ id) (.redirectWrapper {}) w).world := by
  unfold Client.GetRedirect
  simp only [redirectEndpoint, String.append_assoc]
  split <;> rfl

theorem get_requested (env : Env Date Customer Meta) (c : Client) (path : String)
    (dst : Any Date Customer Meta) (w : World) :
    Requested env c w (c.get env path dst w).world "GET" path .nil :=
  makeRequest_requested env c path "GET" .nil dst w (by decide)

theorem post_requested (env : Env Date Customer Meta) (c : Client) (path : String)
    (body dst : Any Date Customer Meta) (w : World) :
    Requested env c w (c.post env path body dst w).world "POST" path body :=
  makeRequest_requested env c path "POST" body dst w (by decide)

theorem put_requested (env : Env Date Customer Meta) (c : Client) (path : String)
    (body dst : Any Date Customer Meta) (w : World) :
    Requested env c w (c.put env path body dst w).world "PUT" path body :=
  makeRequest_requested env c path "PUT" body dst w (by decide)

/-- The body of the one request a call added to the log. -/
theorem makeRequest_sent_body (env : Env Date Customer Meta) (c : Client)
    (path method : String) (body dst : Any Date Customer Meta) (w : World) (r : Request)
    (h : (c.makeRequest env path method body dst w).world.sent = w.sent ++ [r]) :
    r.Body = env.payload body := by
  rw [makeRequest_sent] at h
  have h' := List.append_cancel_left h
  cases hn : c.newRequest env path method body w with
  | mk res w1 =>
    rw [hn] at h'
    cases res with
    | error e => simp at h'
    | ok req =>
      simp only [List.cons.injEq, and_true] at h'
      rw [← h']
      exact (newRequest_ok_fields env c path method body w w1 req hn).2.2

/-- What `makeRequest` does with a response whose status is not 429: the
destination and the error are those of the decoder. -/
theorem makeRequest_binds (env : Env Date Customer Meta) (c : Client)
    (path method : String) (body dst : Any Date Customer Meta) (w w1 : World)
    (req : Request) (resp : Response)
    (hreq : c.newRequest env path method body w = (.ok req, w1))
    (hdo : c.httpClient.Do req = .ok resp)
    (hstatus : resp.StatusCode ≠ StatusTooManyRequests) :
    (c.makeRequest env path method body dst w).dst = (env.bind resp dst).1 ∧
    (c.makeRequest env path method body dst w).err = (env.bind resp dst).2 := by
  rw [makeRequest_of_newRequest_ok env c path method body dst w w1 req hreq, hdo]
  simp only [if_neg hstatus, and_self]

/-! ## Lemmas on `AddMetadata` -/

/-- On a record whose `Metadata` is a map, `Subscription.AddMetadata` returns
the record with `key` set to `value`, the other entries and the other fields
as they were. -/
theorem Subscription_AddMetadata_of_map (s : Subscription Date) (key value : String)
    (m : String → Option String) (h : s.Metadata = some m) :
    ∃ s' m', s.AddMetadata key value = .ok s' ∧ s'.Metadata = some m' ∧
      m' key = some value ∧ (∀ k, k ≠ key → m' k = m k) ∧
      { s' with Metadata := s.Metadata } = s := by
  refine ⟨{ s with Metadata := some (fun k => if k = key then some value else m k) }, _, ?_,
    rfl, ?_, ?_, rfl⟩
  · simp only [Subscription.AddMetadata, h]
  · simp
  · intro k hk
    simp [hk]

/-- The same for `Payout.AddMetadata`. -/
theorem Payout_AddMetadata_of_map (p : Payout Date) (key value : String)
    (m : String → Option String) (h : p.Metadata = some m) :
    ∃ p' m', p.AddMetadata key value = .ok p' ∧ p'.Metadata = some m' ∧
      m' key = some value ∧ (∀ k, k ≠ key → m' k = m k) ∧
      { p' with Metadata := p.Metadata } = p := by
  refine ⟨{ p with Metadata := some (fun k => if k = key then some value else m k) }, _, ?_,
    rfl, ?_, ?_, rfl⟩
  · simp only [Payout.AddMetadata, h]
  · simp
  · intro k hk
    simp [hk]

/-- The same for `Redirect.AddMetadata`. -/
theorem Redirect_AddMetadata_of_map (r : Redirect Customer) (key value : String)
    (m : String → Option String) (h : r.Metadata = some m) :
    ∃ r' m', r.AddMetadata key value = .ok r' ∧ r'.Metadata = some m' ∧
      m' key = some value ∧ (∀ k, k ≠ key → m' k = m k) ∧
      { r' with Metadata := r.Metadata } = r := by
  refine ⟨{ r with Metadata := some (fun k => if k = key then some value else m k) }, _, ?_,
    rfl, ?_, ?_, rfl⟩
  · simp only [Redirect.AddMetadata, h]
  · simp
  · intro k hk
    simp [hk]

/-! ## The claims -/

/-- C1: for every path, body and method whose upper-cased form is `PATCH`,
`newRequest` returns no request and the invalid-method error, and `makeRequest`
returns that same error, leaves the destination as it was and leaves the world
as it was: the transport is not invoked. -/
theorem C1_patch_is_rejected (env : Env Date Customer Meta) (c : Client)
    (path method : String) (body dst : Any Date Customer Meta) (w : World)
    (h : env.toUpper method = "PATCH") :
    c.newRequest env path method body w = (.error (.errorsNew env.InvalidMethodError), w) ∧
    c.makeRequest env path method body dst w =
      { err := some (.errorsNew env.InvalidMethodError), dst := dst, world := w } ∧
    (c.makeRequest env path method body dst w).world.sent = w.sent := by
  have h1 := newRequest_error_of_patch env c path method body w h
  have h2 := makeRequest_of_newRequest_error env c path method body dst w w _ h1
  exact ⟨h1, h2, by rw [h2]⟩

theorem C1_patch_is_rejected_witness :
    asciiEnv.toUpper "patch" = "PATCH" ∧
    (liveClient.newRequest asciiEnv "payouts/PO1" "patch" (.stringMap none) zeroWorld =
        (.error (.errorsNew asciiEnv.InvalidMethodError), zeroWorld) ∧
      liveClient.makeRequest asciiEnv "payouts/PO1" "patch" (.stringMap none) .nil zeroWorld =
        { err := some (.errorsNew asciiEnv.InvalidMethodError), dst := .nil, world := zeroWorld } ∧
      (liveClient.makeRequest asciiEnv "payouts/PO1" "patch" (.stringMap none) .nil
        zeroWorld).world.sent = zeroWorld.sent) :=
  ⟨by decide, C1_patch_is_rejected asciiEnv liveClient "payouts/PO1" "patch" (.stringMap none)
    .nil zeroWorld (by decide)⟩

/-- C2, as amended: every request `newRequest` builds for `POST` carries
exactly one `Idempotency-Key` header, and the call makes one read of the random
source, its own. When that read succeeds the value is the string of the
version-4 UUID made from the bytes read, a non-empty string with the syntax of
a version-4 UUID; and two such calls carry the same key exactly when their two
reads gave the same UUID. -/
theorem C2_idempotency_key (env : Env Date Customer Meta) (c₁ c₂ : Client)
    (path₁ path₂ : String) (body₁ body₂ : Any Date Customer Meta)
    (w₁ w₂ w₁' w₂' : World) (req₁ req₂ : Request)
    (h₁ : c₁.newRequest env path₁ "POST" body₁ w₁ = (.ok req₁, w₁'))
    (h₂ : c₂.newRequest env path₂ "POST" body₂ w₂ = (.ok req₂, w₂')) :
    (∃ key, Header.Values req₁.Header "Idempotency-Key" = [key]) ∧
    w₁'.reads = w₁.reads + 1 ∧
    (∀ u, w₁.randRead w₁.reads = some u →
      Header.Values req₁.Header "Idempotency-Key" =
        [UUID.String (UUID.SetVariant (UUID.SetVersion u 4))] ∧
      isUUIDv4String (UUID.String (UUID.SetVariant (UUID.SetVersion u 4))) = true ∧
      UUID.String (UUID.SetVariant (UUID.SetVersion u 4)) ≠ "") ∧
    (∀ u₁ u₂, w₁.randRead w₁.reads = some u₁ → w₂.randRead w₂.reads = some u₂ →
      (Header.Values req₁.Header "Idempotency-Key" = Header.Values req₂.Header "Idempotency-Key" ↔
        UUID.SetVariant (UUID.SetVersion u₁ 4) = UUID.SetVariant (UUID.SetVersion u₂ 4))) := by
  obtain ⟨k₁, hw₁⟩ := newRequest_post_key env c₁ path₁ body₁ w₁ w₁' req₁ h₁
  obtain ⟨k₂, _⟩ := newRequest_post_key env c₂ path₂ body₂ w₂ w₂' req₂ h₂
  refine ⟨⟨_, k₁⟩, ?_, ?_, ?_⟩
  · rw [hw₁, NewV4_reads]
  · intro u hu
    rw [k₁, NewV4_of_read w₁ u hu]
    exact ⟨rfl, String_v4_valid u, String_ne_empty _⟩
  · intro u₁ u₂ hu₁ hu₂
    rw [k₁, k₂, NewV4_of_read w₁ u₁ hu₁, NewV4_of_read w₂ u₂ hu₂]
    constructor
    · intro h
      exact String_injective _ _ (List.head_eq_of_cons_eq h)
    · intro h
      rw [h]

theorem C2_idempotency_key_witness :
    liveClient.newRequest asciiEnv "subscriptions" "POST" .nil zeroWorld =
      (.ok (postRequest "subscriptions" "00000000-0000-4000-8000-000000000000"),
        { zeroWorld with reads := 1 }) ∧
    liveClient.newRequest asciiEnv "redirect_flows" "POST" .nil { zeroWorld with reads := 1 } =
      (.ok (postRequest "redirect_flows" "00000000-0000-4000-8000-000000000000"),
        { zeroWorld with reads := 2 }) ∧
    (∃ key, Header.Values
      (postRequest "subscriptions" "00000000-0000-4000-8000-000000000000").Header
      "Idempotency-Key" = [key]) ∧
    ({ zeroWorld with reads := 1 } : World).reads = zeroWorld.reads + 1 :=
  ⟨rfl, rfl,
    (C2_idempotency_key asciiEnv liveClient liveClient "subscriptions" "redirect_flows" .nil .nil
      zeroWorld { zeroWorld with reads := 1 } { zeroWorld with reads := 1 }
      { zeroWorld with reads := 2 } _ _ rfl rfl).1,
    (C2_idempotency_key asciiEnv liveClient liveClient "subscriptions" "redirect_flows" .nil .nil
      zeroWorld { zeroWorld with reads := 1 } { zeroWorld with reads := 1 }
      { zeroWorld with reads := 2 } _ _ rfl rfl).2.1⟩

/-- C2 fails as stated. On a random source that gives the same sixteen bytes
twice, two successive `POST` requests are built with the same key; and when the
read of the random source fails, the request is built with the string of the
nil UUID as its key, which is not a version-4 UUID string. -/
theorem C2_counterexample :
    (liveClient.newRequest asciiEnv "subscriptions" "POST" .nil zeroWorld).1 =
      .ok (postRequest "subscriptions" "00000000-0000-4000-8000-000000000000") ∧
    (liveClient.newRequest asciiEnv "redirect_flows" "POST" .nil
        (liveClient.newRequest asciiEnv "subscriptions" "POST" .nil zeroWorld).2).1 =
      .ok (postRequest "redirect_flows" "00000000-0000-4000-8000-000000000000") ∧
    (liveClient.newRequest asciiEnv "subscriptions" "POST" .nil failingWorld).1 =
      .ok (postRequest "subscriptions" "00000000-0000-0000-0000-000000000000") ∧
    isUUIDv4String "00000000-0000-0000-0000-000000000000" = false :=
  ⟨rfl, rfl, rfl, by decide⟩

/-- C3: a request `newRequest` builds with method `GET`, `PUT` or `DELETE` has
no `Idempotency-Key` header and the random source is not read; no request such
a call of `makeRequest` hands to the transport has one; and `get`, `put` and
`delete` are such calls. -/
theorem C3_no_idempotency_key (env : Env Date Customer Meta) (c : Client)
    (path method : String) (body dst : Any Date Customer Meta) (w : World)
    (hm : method = "GET" ∨ method = "PUT" ∨ method = "DELETE") :
    (∀ req w1, c.newRequest env path method body w = (.ok req, w1) →
      Header.Values req.Header "Idempotency-Key" = [] ∧ w1 = w) ∧
    (∀ r ∈ (c.makeRequest env path method body dst w).world.sent,
      r ∈ w.sent ∨ Header.Values r.Header "Idempotency-Key" = []) ∧
    c.get env path dst w = c.makeRequest env path "GET" .nil dst w ∧
    c.put env path body dst w = c.makeRequest env path "PUT" body dst w ∧
    c.delete env path w = c.makeRequest env path "DELETE" .nil .nil w := by
  have hne : method ≠ MethodPost := by
    rcases hm with h | h | h <;> rw [h] <;> decide
  have key : ∀ req w1, c.newRequest env path method body w = (.ok req, w1) →
      Header.Values req.Header "Idempotency-Key" = [] ∧ w1 = w := by
    intro req w1 h
    have hh := newRequest_header env c path method body w w1 req h
    obtain ⟨_, _, _, _, _, _, _, hcase⟩ := newRequest_ok_cases env c path method body w w1 req h
    rcases hcase with ⟨hp, _, _⟩ | ⟨_, hw, _⟩
    · exact absurd hp hne
    · refine ⟨?_, hw⟩
      rw [hh, if_neg hne]
      simp [Header.Values, canonical_IdempotencyKey, List.filter]
  refine ⟨key, ?_, rfl, rfl, rfl⟩
  intro r hr
  cases hn : c.newRequest env path method body w with
  | mk res w1 =>
    cases res with
    | error e =>
      rw [makeRequest_of_newRequest_error env c path method body dst w w1 e hn] at hr
      have hs := (newRequest_world env c path method body w).1
      rw [hn] at hs
      exact Or.inl (hs ▸ hr)
    | ok req =>
      obtain ⟨hv, hw⟩ := key req w1 hn
      rw [makeRequest_of_newRequest_ok env c path method body dst w w1 req hn] at hr
      have hmem : r ∈ w.sent ++ [req] := by
        subst hw
        cases hd : c.httpClient.Do req with
        | error e => rw [hd] at hr; exact hr
        | ok resp =>
          rw [hd] at hr
          by_cases hs : resp.StatusCode = StatusTooManyRequests
          · simp only [hs, if_true] at hr; exact hr
          · simp only [hs, if_false] at hr; exact hr
      rcases List.mem_append.mp hmem with h | h
      · exact Or.inl h
      · rw [List.mem_singleton.mp h]
        exact Or.inr hv

theorem C3_no_idempotency_key_witness :
    ("GET" = "GET" ∨ "GET" = "PUT" ∨ "GET" = "DELETE") ∧
    ((∀ req w1, liveClient.newRequest asciiEnv "payouts" "GET" .nil zeroWorld = (.ok req, w1) →
        Header.Values req.Header "Idempotency-Key" = [] ∧ w1 = zeroWorld) ∧
      (∀ r ∈ (liveClient.makeRequest asciiEnv "payouts" "GET" .nil .nil zeroWorld).world.sent,
        r ∈ zeroWorld.sent ∨ Header.Values r.Header "Idempotency-Key" = []) ∧
      liveClient.get asciiEnv "payouts" .nil zeroWorld =
        liveClient.makeRequest asciiEnv "payouts" "GET" .nil .nil zeroWorld ∧
      liveClient.put asciiEnv "payouts" .nil .nil zeroWorld =
        liveClient.makeRequest asciiEnv "payouts" "PUT" .nil .nil zeroWorld ∧
      liveClient.delete asciiEnv "payouts" zeroWorld =
        liveClient.makeRequest asciiEnv "payouts" "DELETE" .nil .nil zeroWorld) :=
  ⟨by decide, C3_no_idempotency_key asciiEnv liveClient "payouts" "GET" .nil .nil zeroWorld
    (by decide)⟩

/-- C4: every request `newRequest` builds carries `Authorization` with value
`Bearer ` followed by the access token, `GoCardless-Version` with value
`2015-07-06`, `Accept` and `Content-Type` with value `application/json`, each
exactly once, whatever the method and the body. -/
theorem C4_default_headers (env : Env Date Customer Meta) (c : Client)
    (path method : String) (body : Any Date Customer Meta) (w w1 : World) (req : Request)
    (h : c.newRequest env path method body w = (.ok req, w1)) :
    Header.Values req.Header "Authorization" = ["Bearer " ++ c.AccessToken] ∧
    Header.Values req.Header "GoCardless-Version" = ["2015-07-06"] ∧
    Header.Values req.Header "Accept" = ["application/json"] ∧
    Header.Values req.Header "Content-Type" = ["application/json"] := by
  rw [newRequest_header env c path method body w w1 req h]
  by_cases hm : method = MethodPost
  · simp [hm, Header.Values, canonical_Authorization, canonical_Version, canonical_Accept,
      canonical_ContentType, List.filter]
  · simp [hm, Header.Values, canonical_Authorization, canonical_Version, canonical_Accept,
      canonical_ContentType, List.filter]

theorem C4_default_headers_witness :
    liveClient.newRequest asciiEnv "subscriptions" "POST" (.subscriptionWrapper {}) zeroWorld =
        (.ok { Method := "POST", URL := "https://api.gocardless.com/subscriptions",
               Body := [115, 117, 98, 115, 99, 114, 105, 112, 116, 105, 111, 110, 115],
               Header := [("Authorization", "Bearer token"), ("Gocardless-Version", "2015-07-06"),
                 ("Accept", "application/json"), ("Content-Type", "application/json"),
                 ("Idempotency-Key", "00000000-0000-4000-8000-000000000000")] },
          { zeroWorld with reads := 1 }) ∧
    (Header.Values [("Authorization", "Bearer token"), ("Gocardless-Version", "2015-07-06"),
        ("Accept", "application/json"), ("Content-Type", "application/json"),
        ("Idempotency-Key", "00000000-0000-4000-8000-000000000000")] "Authorization" =
        ["Bearer " ++ liveClient.AccessToken] ∧
      Header.Values [("Authorization", "Bearer token"), ("Gocardless-Version", "2015-07-06"),
        ("Accept", "application/json"), ("Content-Type", "application/json"),
        ("Idempotency-Key", "00000000-0000-4000-8000-000000000000")] "GoCardless-Version" =
        ["2015-07-06"] ∧
      Header.Values [("Authorization", "Bearer token"), ("Gocardless-Version", "2015-07-06"),
        ("Accept", "application/json"), ("Content-Type", "application/json"),
        ("Idempotency-Key", "00000000-0000-4000-8000-000000000000")] "Accept" =
        ["application/json"] ∧
      Header.Values [("Authorization", "Bearer token"), ("Gocardless-Version", "2015-07-06"),
        ("Accept", "application/json"), ("Content-Type", "application/json"),
        ("Idempotency-Key", "00000000-0000-4000-8000-000000000000")] "Content-Type" =
        ["application/json"]) :=
  ⟨rfl, C4_default_headers asciiEnv liveClient "subscriptions" "POST" (.subscriptionWrapper {})
    zeroWorld { zeroWorld with reads := 1 } _ rfl⟩

/-- C5: when the transport answers the request with status 429, `makeRequest`
returns the error made by `errors.New` with the text `StatusTooManyRequests`.
That error is no value of another dynamic type, as the errors of the transport
and of the decoder libraries are, and it differs from the invalid-method error
whenever the text of that one differs. The destination is as it was, nothing
was handed to the decoder, and the transport received this one request. -/
theorem C5_rate_limit (env : Env Date Customer Meta) (c : Client)
    (path method : String) (body dst : Any Date Customer Meta) (w w1 : World)
    (req : Request) (resp : Response)
    (hreq : c.newRequest env path method body w = (.ok req, w1))
    (hdo : c.httpClient.Do req = .ok resp)
    (hstatus : resp.StatusCode = 429) :
    (c.makeRequest env path method body dst w).err =
      some (.errorsNew "StatusTooManyRequests") ∧
    (GoError.errorsNew "StatusTooManyRequests").Error = "StatusTooManyRequests" ∧
    (∀ t m, (c.makeRequest env path method body dst w).err ≠ some (.other t m)) ∧
    (env.InvalidMethodError ≠ "StatusTooManyRequests" →
      (c.makeRequest env path method body dst w).err ≠
        some (.errorsNew env.InvalidMethodError)) ∧
    (c.makeRequest env path method body dst w).dst = dst ∧
    (c.makeRequest env path method body dst w).world.bound = w.bound ∧
    (c.makeRequest env path method body dst w).world.sent = w.sent ++ [req] := by
  have hw := newRequest_world env c path method body w
  rw [hreq] at hw
  have hs : resp.StatusCode = StatusTooManyRequests := hstatus
  have hsent : w1.sent = w.sent := hw.1
  have hbound : w1.bound = w.bound := hw.2.1
  have hout : c.makeRequest env path method body dst w =
      { err := some (.errorsNew "StatusTooManyRequests"), dst := dst,
        world := { w1 with sent := w1.sent ++ [req] } } := by
    rw [makeRequest_of_newRequest_ok env c path method body dst w w1 req hreq, hdo]
    simp only [hs, if_true]
  rw [hout]
  refine ⟨rfl, rfl, ?_, ?_, rfl, hbound, ?_⟩
  · intro t m h
    simp at h
  · intro hne h
    simp only [Option.some.injEq, GoError.errorsNew.injEq] at h
    exact hne h.symm
  · simp [hsent]

theorem C5_rate_limit_witness :
    ({ liveClient with httpClient := busyTransport } : Client).newRequest asciiEnv
        "subscriptions" "POST" .nil zeroWorld =
      (.ok (postRequest "subscriptions" "00000000-0000-4000-8000-000000000000"),
        { zeroWorld with reads := 1 }) ∧
    busyTransport.Do (postRequest "subscriptions" "00000000-0000-4000-8000-000000000000") =
      .ok { StatusCode := 429, Body := [123, 125] } ∧
    (({ liveClient with httpClient := busyTransport } : Client).makeRequest asciiEnv
        "subscriptions" "POST" .nil (.subscriptionWrapper {}) zeroWorld).err =
      some (.errorsNew "StatusTooManyRequests") ∧
    (({ liveClient with httpClient := busyTransport } : Client).makeRequest asciiEnv
        "subscriptions" "POST" .nil (.subscriptionWrapper {}) zeroWorld).world.sent =
      zeroWorld.sent ++ [postRequest "subscriptions" "00000000-0000-4000-8000-000000000000"] :=
  ⟨rfl, rfl,
    (C5_rate_limit asciiEnv { liveClient with httpClient := busyTransport } "subscriptions"
      "POST" .nil (.subscriptionWrapper {}) zeroWorld { zeroWorld with reads := 1 } _
      { StatusCode := 429, Body := [123, 125] } rfl rfl rfl).1,
    (C5_rate_limit asciiEnv { liveClient with httpClient := busyTransport } "subscriptions"
      "POST" .nil (.subscriptionWrapper {}) zeroWorld { zeroWorld with reads := 1 } _
      { StatusCode := 429, Body := [123, 125] } rfl rfl rfl).2.2.2.2.2.2⟩

/-- C6: with two different selectors for sandbox and live,
`NewClientWithHTTPClient` returns a client exactly when the selector given is
one of them; the client holds the access token and the transport given, and
its `RemoteURL` is `https://api-sandbox.gocardless.com/` for sandbox and
`https://api.gocardless.com/` for live. For every other selector the
construction ends in `log.Fatalf` and no client is returned. `NewClient` is the
same construction over the zero HTTP client. -/
theorem C6_client_construction (SandboxEnvironment LiveEnvironment : Environment)
    (hne : SandboxEnvironment ≠ LiveEnvironment) (hc zeroHTTPClient : HTTPClient)
    (accessToken : String) (env : Environment) :
    (env = SandboxEnvironment →
      NewClientWithHTTPClient SandboxEnvironment LiveEnvironment hc accessToken env =
        .ok { AccessToken := accessToken, RemoteURL := "https://api-sandbox.gocardless.com/",
              httpClient := hc }) ∧
    (env = LiveEnvironment →
      NewClientWithHTTPClient SandboxEnvironment LiveEnvironment hc accessToken env =
        .ok { AccessToken := accessToken, RemoteURL := "https://api.gocardless.com/",
              httpClient := hc }) ∧
    (env ≠ SandboxEnvironment → env ≠ LiveEnvironment →
      ∃ message, NewClientWithHTTPClient SandboxEnvironment LiveEnvironment hc accessToken env =
        .error message) ∧
    ((∃ c, NewClientWithHTTPClient SandboxEnvironment LiveEnvironment hc accessToken env =
        .ok c) ↔ env = SandboxEnvironment ∨ env = LiveEnvironment) ∧
    NewClient SandboxEnvironment LiveEnvironment zeroHTTPClient accessToken env =
      NewClientWithHTTPClient SandboxEnvironment LiveEnvironment zeroHTTPClient accessToken
        env := by
  refine ⟨?_, ?_, ?_, ?_, rfl⟩
  · intro h
    simp [NewClientWithHTTPClient, h, baseSandboxURL]
  · intro h
    have h' : env ≠ SandboxEnvironment := by rw [h]; exact fun e => hne e.symm
    simp [NewClientWithHTTPClient, h, h', hne.symm, baseLiveURL]
  · intro h1 h2
    simp only [NewClientWithHTTPClient, if_neg h1, if_neg h2]
    exact ⟨_, rfl⟩
  · constructor
    · rintro ⟨c, hc'⟩
      by_contra hcon
      push_neg at hcon
      simp [NewClientWithHTTPClient, hcon.1, hcon.2] at hc'
    · rintro (h | h)
      · simp only [NewClientWithHTTPClient, if_pos h]
        exact ⟨_, rfl⟩
      · have h' : env ≠ SandboxEnvironment := by rw [h]; exact fun e => hne e.symm
        simp only [NewClientWithHTTPClient, if_neg h', if_pos h]
        exact ⟨_, rfl⟩

theorem C6_client_construction_witness :
    ("sandbox" : Environment) ≠ "live" ∧
    NewClientWithHTTPClient "sandbox" "live" okTransport "token" "live" =
      .ok { AccessToken := "token", RemoteURL := "https://api.gocardless.com/",
            httpClient := okTransport } ∧
    (∃ message, NewClientWithHTTPClient "sandbox" "live" okTransport "token" "staging" =
      .error message) :=
  ⟨by decide,
    (C6_client_construction "sandbox" "live" (by decide) okTransport okTransport "token"
      "live").2.1 rfl,
    (C6_client_construction "sandbox" "live" (by decide) okTransport okTransport "token"
      "staging").2.2.1 (by decide) (by decide)⟩

/-- C7: the body `UpdateSubscription` hands to `put` is the object
`subscriptions` over `metadata` over the `Metadata` of the record, and
`UpdatePayout` hands over the same with `payouts`: one top-level key, under it
the one key `metadata`. The request sent carries the bytes of that object, so
two records that agree on `Metadata` give requests with the same body,
whatever their other fields. -/
theorem C7_update_sends_metadata_only (env : Env Date Customer Meta) (c : Client) (w : World)
    (s s' : Subscription Date) (p p' : Payout Date) :
    c.UpdateSubscription env s w =
      c.put env ("subscriptions/" ++ s.ID) (metadataOnly "subscriptions" s.Metadata)
        (.subscriptionWrapper { Subscription := some s }) w ∧
    c.UpdatePayout env p w =
      c.put env ("payouts/" ++ p.ID) (metadataOnly "payouts" p.Metadata)
        (.payoutWrapper { Payout := some p }) w ∧
    (∀ (name : String) (m : Metadata),
      (metadataOnly name m : Any Date Customer Meta).jsonKeys = some [name] ∧
      (metadataOnly name m : Any Date Customer Meta).lookup name =
        some (.anyMap [("metadata", .stringMap m)]) ∧
      (Any.anyMap [("metadata", .stringMap m)] : Any Date Customer Meta).jsonKeys =
        some ["metadata"] ∧
      (Any.anyMap [("metadata", .stringMap m)] : Any Date Customer Meta).lookup "metadata" =
        some (.stringMap m)) ∧
    Requested env c w (c.UpdateSubscription env s w).world "PUT" ("subscriptions/" ++ s.ID)
      (metadataOnly "subscriptions" s.Metadata) ∧
    Requested env c w (c.UpdatePayout env p w).world "PUT" ("payouts/" ++ p.ID)
      (metadataOnly "payouts" p.Metadata) ∧
    (s.Metadata = s'.Metadata → ∀ r r',
      (c.UpdateSubscription env s w).world.sent = w.sent ++ [r] →
      (c.UpdateSubscription env s' w).world.sent = w.sent ++ [r'] → r.Body = r'.Body) ∧
    (p.Metadata = p'.Metadata → ∀ r r',
      (c.UpdatePayout env p w).world.sent = w.sent ++ [r] →
      (c.UpdatePayout env p' w).world.sent = w.sent ++ [r'] → r.Body = r'.Body) := by
  have hs : ∀ x : Subscription Date, c.UpdateSubscription env x w =
      c.put env ("subscriptions/" ++ x.ID) (metadataOnly "subscriptions" x.Metadata)
        (.subscriptionWrapper { Subscription := some x }) w := by
    intro x
    simp only [Client.UpdateSubscription, subscriptionEndpoint, metadataOnly]
    rfl
  have hp : ∀ x : Payout Date, c.UpdatePayout env x w =
      c.put env ("payouts/" ++ x.ID) (metadataOnly "payouts" x.Metadata)
        (.payoutWrapper { Payout := some x }) w := by
    intro x
    simp only [Client.UpdatePayout, payoutEndpoint, metadataOnly]
    rfl
  refine ⟨hs s, hp p, ?_, ?_, ?_, ?_, ?_⟩
  · intro name m
    refine ⟨rfl, ?_, rfl, ?_⟩
    · simp [metadataOnly, Any.lookup]
    · simp [Any.lookup]
  · rw [hs s]
    exact put_requested env c _ _ _ w
  · rw [hp p]
    exact put_requested env c _ _ _ w
  · intro hm r r' h1 h2
    rw [hs s] at h1
    rw [hs s'] at h2
    rw [makeRequest_sent_body env c _ _ _ _ w r h1, makeRequest_sent_body env c _ _ _ _ w r' h2, hm]
  · intro hm r r' h1 h2
    rw [hp p] at h1
    rw [hp p'] at h2
    rw [makeRequest_sent_body env c _ _ _ _ w r h1, makeRequest_sent_body env c _ _ _ _ w r' h2, hm]

theorem C7_update_sends_metadata_only_witness :
    (liveClient.UpdateSubscription asciiEnv someSubscription zeroWorld).world.sent =
      [{ Method := "PUT", URL := "https://api.gocardless.com/subscriptions/SB123",
         Body := [115, 117, 98, 115, 99, 114, 105, 112, 116, 105, 111, 110, 115],
         Header := [("Authorization", "Bearer token"), ("Gocardless-Version", "2015-07-06"),
           ("Accept", "application/json"), ("Content-Type", "application/json")] }] ∧
    liveClient.UpdateSubscription asciiEnv someSubscription zeroWorld =
      liveClient.put asciiEnv ("subscriptions/" ++ someSubscription.ID)
        (metadataOnly "subscriptions" someSubscription.Metadata)
        (.subscriptionWrapper { Subscription := some someSubscription }) zeroWorld ∧
    ∀ r r',
      (liveClient.UpdateSubscription asciiEnv someSubscription zeroWorld).world.sent =
        zeroWorld.sent ++ [r] →
      (liveClient.UpdateSubscription asciiEnv { someSubscription with Amount := 7, Name := "n" }
        zeroWorld).world.sent = zeroWorld.sent ++ [r'] → r.Body = r'.Body :=
  ⟨rfl,
    (C7_update_sends_metadata_only asciiEnv liveClient zeroWorld someSubscription
      { someSubscription with Amount := 7, Name := "n" } somePayout somePayout).1,
    (C7_update_sends_metadata_only asciiEnv liveClient zeroWorld someSubscription
      { someSubscription with Amount := 7, Name := "n" } somePayout somePayout).2.2.2.2.2.1 rfl⟩

/-- C8, as amended: `CreateSubscription` and `CreateRedirect` post the wrapper
of the record, `CancelSubscription`, `PauseSubscription` and
`ResumeSubscription` post the object `subscriptions` over `metadata`: the only
top-level key of these bodies is the plural name of the collection.
`CompleteRedirect` posts the object `data` over `session_token`, whose only
top-level key is `data`. All six give as destination the wrapper, keyed by the
plural name, around the record passed, and a response whose status is not 429
is decoded into that destination. -/
theorem C8_envelopes (env : Env Date Customer Meta) (c : Client) (w : World)
    (s : Subscription Date) (r : Redirect Customer) :
    (c.CreateSubscription env s w =
        c.post env "subscriptions" (.subscriptionWrapper { Subscription := some s })
          (.subscriptionWrapper { Subscription := some s }) w ∧
      c.CancelSubscription env s w =
        c.post env ("subscriptions/" ++ s.ID ++ "/actions/cancel")
          (metadataOnly "subscriptions" s.Metadata)
          (.subscriptionWrapper { Subscription := some s }) w ∧
      c.PauseSubscription env s w =
        c.post env ("subscriptions/" ++ s.ID ++ "/actions/pause")
          (metadataOnly "subscriptions" s.Metadata)
          (.subscriptionWrapper { Subscription := some s }) w ∧
      c.ResumeSubscription env s w =
        c.post env ("subscriptions/" ++ s.ID ++ "/actions/resume")
          (metadataOnly "subscriptions" s.Metadata)
          (.subscriptionWrapper { Subscription := some s }) w ∧
      c.CreateRedirect env r w =
        c.post env "redirect_flows" (.redirectWrapper { Redirect := some r })
          (.redirectWrapper { Redirect := some r }) w ∧
      c.CompleteRedirect env r w =
        c.post env ("redirect_flows/" ++ r.ID ++ "/actions/complete")
          (.anyMap [("data", .anyMap [("session_token", .string r.SessionToken)])])
          (.redirectWrapper { Redirect := some r }) w) ∧
    ((Any.subscriptionWrapper { Subscription := some s } : Any Date Customer Meta).jsonKeys =
        some ["subscriptions"] ∧
      (metadataOnly "subscriptions" s.Metadata : Any Date Customer Meta).jsonKeys =
        some ["subscriptions"] ∧
      (Any.redirectWrapper { Redirect := some r } : Any Date Customer Meta).jsonKeys =
        some ["redirect_flows"] ∧
      (Any.anyMap [("data", .anyMap [("session_token", .string r.SessionToken)])] :
        Any Date Customer Meta).jsonKeys = some ["data"]) ∧
    (∀ (path : String) (body dst : Any Date Customer Meta),
      Requested env c w (c.post env path body dst w).world "POST" path body ∧
      ∀ req w1 resp, c.newRequest env path "POST" body w = (.ok req, w1) →
        c.httpClient.Do req = .ok resp → resp.StatusCode ≠ 429 →
        (c.post env path body dst w).dst = (env.bind resp dst).1 ∧
        (c.post env path body dst w).err = (env.bind resp dst).2) := by
  refine ⟨⟨rfl, ?_, ?_, ?_, rfl, ?_⟩, ⟨rfl, rfl, rfl, rfl⟩, ?_⟩
  · simp only [Client.CancelSubscription, subscriptionEndpoint, metadataOnly]
    rfl
  · simp only [Client.PauseSubscription, subscriptionEndpoint, metadataOnly]
    rfl
  · simp only [Client.ResumeSubscription, subscriptionEndpoint, metadataOnly]
    rfl
  · simp only [Client.CompleteRedirect, redirectEndpoint]
    rfl
  · intro path body dst
    refine ⟨post_requested env c path body dst w, ?_⟩
    intro req w1 resp hreq hdo hstatus
    exact makeRequest_binds env c path "POST" body dst w w1 req resp hreq hdo hstatus

theorem C8_envelopes_witness :
    liveClient.newRequest asciiEnv "redirect_flows/RE123/actions/complete" "POST"
        (.anyMap [("data", .anyMap [("session_token", .string "SESS_1")])]) zeroWorld =
      (.ok { postRequest "redirect_flows/RE123/actions/complete"
              "00000000-0000-4000-8000-000000000000" with Body := [100, 97, 116, 97] },
        { zeroWorld with reads := 1 }) ∧
    (liveClient.post asciiEnv "redirect_flows/RE123/actions/complete"
        (.anyMap [("data", .anyMap [("session_token", .string "SESS_1")])])
        (.redirectWrapper { Redirect := some someRedirect }) zeroWorld).err =
      (asciiEnv.bind { StatusCode := 200, Body := [] }
        (.redirectWrapper { Redirect := some someRedirect })).2 :=
  ⟨rfl,
    (((C8_envelopes asciiEnv liveClient zeroWorld someSubscription someRedirect).2.2
      "redirect_flows/RE123/actions/complete"
      (.anyMap [("data", .anyMap [("session_token", .string "SESS_1")])])
      (.redirectWrapper { Redirect := some someRedirect })).2 _ { zeroWorld with reads := 1 }
      { StatusCode := 200, Body := [] } rfl rfl (by decide)).2⟩

/-- C8 fails as stated: the one request `CompleteRedirect` sends for a redirect
flow carries the bytes of a body whose only top-level key is `data`, not
`redirect_flows`. -/
theorem C8_counterexample :
    (liveClient.CompleteRedirect asciiEnv someRedirect zeroWorld).world.sent =
      [{ postRequest "redirect_flows/RE123/actions/complete"
          "00000000-0000-4000-8000-000000000000" with Body := [100, 97, 116, 97] }] ∧
    String.mk (List.map Char.ofNat [100, 97, 116, 97]) = "data" ∧
    liveClient.CompleteRedirect asciiEnv someRedirect zeroWorld =
      liveClient.post asciiEnv "redirect_flows/RE123/actions/complete"
        (.anyMap [("data", .anyMap [("session_token", .string "SESS_1")])])
        (.redirectWrapper { Redirect := some someRedirect }) zeroWorld ∧
    (Any.anyMap [("data", .anyMap [("session_token", .string "SESS_1")])] :
      Any Unit Unit Unit).jsonKeys = some ["data"] ∧
    (Any.anyMap [("data", .anyMap [("session_token", .string "SESS_1")])] :
      Any Unit Unit Unit).jsonKeys ≠ some ["redirect_flows"] :=
  ⟨rfl, by decide, rfl, rfl, by decide⟩

/-- C9, as amended: each operation asks once, with its method, for the URL the
HTTP library parses from the `RemoteURL` of the client followed by its relative
path: `GET` on `payouts`, `payouts/<id>`, `subscriptions`, `subscriptions/<id>`
and `redirect_flows/<id>` for the list and get operations, `PUT` on
`payouts/<id>` and `subscriptions/<id>` for the updates, `POST` on
`subscriptions`, `redirect_flows`, `subscriptions/<id>/actions/cancel`,
`.../pause`, `.../resume` and `redirect_flows/<id>/actions/complete` for the
create and action operations. Whenever the library leaves that string as it
is, the URL of the request is `RemoteURL` followed by the path. -/
theorem C9_paths_and_methods [Inhabited Meta] (env : Env Date Customer Meta) (c : Client)
    (w : World) (id : String) (s : Subscription Date) (p : Payout Date)
    (r : Redirect Customer) :
    Requested env c w (c.GetPayouts env w).2 "GET" "payouts" .nil ∧
    Requested env c w (c.GetPayout env id w).2 "GET" ("payouts/" ++ id) .nil ∧
    Requested env c w (c.UpdatePayout env p w).world "PUT" ("payouts/" ++ p.ID)
      (metadataOnly "payouts" p.Metadata) ∧
    Requested env c w (c.CreateSubscription env s w).world "POST" "subscriptions"
      (.subscriptionWrapper { Subscription := some s }) ∧
    Requested env c w (c.GetSubscriptions env w).2 "GET" "subscriptions" .nil ∧
    Requested env c w (c.GetSubscription env id w).2 "GET" ("subscriptions/" ++ id) .nil ∧
    Requested env c w (c.UpdateSubscription env s w).world "PUT" ("subscriptions/" ++ s.ID)
      (metadataOnly "subscriptions" s.Metadata) ∧
    Requested env c w (c.CancelSubscription env s w).world "POST"
      ("subscriptions/" ++ s.ID ++ "/actions/cancel") (metadataOnly "subscriptions" s.Metadata) ∧
    Requested env c w (c.PauseSubscription env s w).world "POST"
      ("subscriptions/" ++ s.ID ++ "/actions/pause") (metadataOnly "subscriptions" s.Metadata) ∧
    Requested env c w (c.ResumeSubscription env s w).world "POST"
      ("subscriptions/" ++ s.ID ++ "/actions/resume") (metadataOnly "subscriptions" s.Metadata) ∧
    Requested env c w (c.CreateRedirect env r w).world "POST" "redirect_flows"
      (.redirectWrapper { Redirect := some r }) ∧
    Requested env c w (c.GetRedirect env id w).2 "GET" ("redirect_flows/" ++ id) .nil ∧
    Requested env c w (c.CompleteRedirect env r w).world "POST"
      ("redirect_flows/" ++ r.ID ++ "/actions/complete")
      (.anyMap [("data", .anyMap [("session_token", .string r.SessionToken)])]) ∧
    (∀ (after : World) (method path : String) (body : Any Date Customer Meta) (req : Request),
      Requested env c w after method path body →
      env.parsedURL (c.RemoteURL ++ path) = c.RemoteURL ++ path →
      after.sent = w.sent ++ [req] → req.URL = c.RemoteURL ++ path) := by
  refine ⟨?_, ?_, ?_, ?_, ?_, ?_, ?_, ?_, ?_, ?_, ?_, ?_, ?_, ?_⟩
  · rw [GetPayouts_world]
    exact get_requested env c _ _ w
  · rw [GetPayout_world]
    exact get_requested env c _ _ w
  · have h : c.UpdatePayout env p w =
        c.put env ("payouts/" ++ p.ID) (metadataOnly "payouts" p.Metadata)
          (.payoutWrapper { Payout := some p }) w := by
      simp only [Client.UpdatePayout, payoutEndpoint, metadataOnly]
      rfl
    rw [h]
    exact put_requested env c _ _ _ w
  · exact post_requested env c _ _ _ w
  · rw [GetSubscriptions_world]
    exact get_requested env c _ _ w
  · rw [GetSubscription_world]
    exact get_requested env c _ _ w
  · have h : c.UpdateSubscription env s w =
        c.put env ("subscriptions/" ++ s.ID) (metadataOnly "subscriptions" s.Metadata)
          (.subscriptionWrapper { Subscription := some s }) w := by
      simp only [Client.UpdateSubscription, subscriptionEndpoint, metadataOnly]
      rfl
    rw [h]
    exact put_requested env c _ _ _ w
  · have h : c.CancelSubscription env s w =
        c.post env ("subscriptions/" ++ s.ID ++ "/actions/cancel")
          (metadataOnly "subscriptions" s.Metadata)
          (.subscriptionWrapper { Subscription := some s }) w := by
      simp only [Client.CancelSubscription, subscriptionEndpoint, metadataOnly]
      rfl
    rw [h]
    exact post_requested env c _ _ _ w
  · have h : c.PauseSubscription env s w =
        c.post env ("subscriptions/" ++ s.ID ++ "/actions/pause")
          (metadataOnly "subscriptions" s.Metadata)
          (.subscriptionWrapper { Subscription := some s }) w := by
      simp only [Client.PauseSubscription, subscriptionEndpoint, metadataOnly]
      rfl
    rw [h]
    exact post_requested env c _ _ _ w
  · have h : c.ResumeSubscription env s w =
        c.post env ("subscriptions/" ++ s.ID ++ "/actions/resume")
          (metadataOnly "subscriptions" s.Metadata)
          (.subscriptionWrapper { Subscription := some s }) w := by
      simp only [Client.ResumeSubscription, subscriptionEndpoint, metadataOnly]
      rfl
    rw [h]
    exact post_requested env c _ _ _ w
  · exact post_requested env c _ _ _ w
  · rw [GetRedirect_world]
    exact get_requested env c _ _ w
  · have h : c.CompleteRedirect env r w =
        c.post env ("redirect_flows/" ++ r.ID ++ "/actions/complete")
          (.anyMap [("data", .anyMap [("session_token", .string r.SessionToken)])])
          (.redirectWrapper { Redirect := some r }) w := by
      simp only [Client.CompleteRedirect, redirectEndpoint]
      rfl
    rw [h]
    exact post_requested env c _ _ _ w
  · intro after method path body req hreq hraw hsent
    rcases hreq with ⟨hnone, _⟩ | ⟨req', hone, _, hurl, _⟩
    · rw [hnone] at hsent
      simp at hsent
    · rw [hone] at hsent
      have h := List.append_cancel_left hsent
      simp only [List.cons.injEq, and_true] at h
      rw [← h, hurl, hraw]

theorem C9_paths_and_methods_witness :
    Requested asciiEnv liveClient zeroWorld (liveClient.GetPayout asciiEnv "PO123" zeroWorld).2
      "GET" ("payouts/" ++ "PO123") .nil ∧
    asciiEnv.parsedURL (liveClient.RemoteURL ++ ("payouts/" ++ "PO123")) =
      liveClient.RemoteURL ++ ("payouts/" ++ "PO123") ∧
    (liveClient.GetPayout asciiEnv "PO123" zeroWorld).2.sent =
      zeroWorld.sent ++
        [{ Method := "GET", URL := "https://api.gocardless.com/payouts/PO123", Body := [],
           Header := [("Authorization", "Bearer token"), ("Gocardless-Version", "2015-07-06"),
             ("Accept", "application/json"), ("Content-Type", "application/json")] }] ∧
    "https://api.gocardless.com/payouts/PO123" = liveClient.RemoteURL ++ ("payouts/" ++ "PO123") :=
  ⟨(C9_paths_and_methods asciiEnv liveClient zeroWorld "PO123" someSubscription somePayout
      someRedirect).2.1,
    rfl, rfl,
    (C9_paths_and_methods asciiEnv liveClient zeroWorld "PO123" someSubscription somePayout
      someRedirect).2.2.2.2.2.2.2.2.2.2.2.2.2
      (liveClient.GetPayout asciiEnv "PO123" zeroWorld).2 "GET" ("payouts/" ++ "PO123") .nil _
      (C9_paths_and_methods asciiEnv liveClient zeroWorld "PO123" someSubscription somePayout
        someRedirect).2.1
      rfl rfl⟩

/-- C9 fails as stated: for the identifier `a b` the request `GetPayout` sends
has the URL `https://api.gocardless.com/payouts/a%20b`, which is not the
`RemoteURL` of the client followed by `payouts/a b`. -/
theorem C9_counterexample :
    (liveClient.GetPayout asciiEnv "a b" zeroWorld).2.sent =
      [{ Method := "GET", URL := "https://api.gocardless.com/payouts/a%20b", Body := [],
         Header := [("Authorization", "Bearer token"), ("Gocardless-Version", "2015-07-06"),
           ("Accept", "application/json"), ("Content-Type", "application/json")] }] ∧
    liveClient.RemoteURL ++ ("payouts/" ++ "a b") = "https://api.gocardless.com/payouts/a b" ∧
    "https://api.gocardless.com/payouts/a%20b" ≠ liveClient.RemoteURL ++ ("payouts/" ++ "a b") :=
  ⟨rfl, rfl, by decide⟩

/-- C10: when the transport fails on the request with error `e`, `makeRequest`
returns `e` itself; the destination is as it was and nothing was handed to the
decoder. -/
theorem C10_transport_error (env : Env Date Customer Meta) (c : Client)
    (path method : String) (body dst : Any Date Customer Meta) (w w1 : World)
    (req : Request) (e : GoError)
    (hreq : c.newRequest env path method body w = (.ok req, w1))
    (hdo : c.httpClient.Do req = .error e) :
    (c.makeRequest env path method body dst w).err = some e ∧
    (c.makeRequest env path method body dst w).dst = dst ∧
    (c.makeRequest env path method body dst w).world.bound = w.bound ∧
    (c.makeRequest env path method body dst w).world.sent = w.sent ++ [req] := by
  have hw := newRequest_world env c path method body w
  rw [hreq] at hw
  have hsent : w1.sent = w.sent := hw.1
  have hbound : w1.bound = w.bound := hw.2.1
  rw [makeRequest_of_newRequest_ok env c path method body dst w w1 req hreq, hdo]
  exact ⟨rfl, rfl, hbound, by simp [hsent]⟩

theorem C10_transport_error_witness :
    ({ liveClient with httpClient := downTransport } : Client).newRequest asciiEnv
        "payouts/PO123" "GET" .nil zeroWorld =
      (.ok { Method := "GET", URL := "https://api.gocardless.com/payouts/PO123", Body := [],
             Header := [("Authorization", "Bearer token"), ("Gocardless-Version", "2015-07-06"),
               ("Accept", "application/json"), ("Content-Type", "application/json")] },
        zeroWorld) ∧
    (({ liveClient with httpClient := downTransport } : Client).makeRequest asciiEnv
        "payouts/PO123" "GET" .nil (.payoutWrapper {}) zeroWorld).err =
      some (.other "*url.Error" "connection refused") :=
  ⟨rfl,
    (C10_transport_error asciiEnv { liveClient with httpClient := downTransport }
      "payouts/PO123" "GET" .nil (.payoutWrapper {}) zeroWorld zeroWorld _
      (.other "*url.Error" "connection refused") rfl rfl).1⟩


/-- C11 fails on the code: `NewSubscription` and `NewRedirect` leave `Metadata`
nil, as the zero value of `Payout` does, and `AddMetadata` assigns to an entry
of that map, which panics. The call on a fresh record ends in the panic
`assignment to entry in nil map`, whatever the key and the value. -/
theorem C11_AddMetadata_panics_on_fresh_record [Inhabited Customer] :
    (∀ (amount : Int) (currency intervalUnit mandateID key value : String),
      (NewSubscription amount currency intervalUnit mandateID :
        Subscription Date).AddMetadata key value = .error "assignment to entry in nil map") ∧
    (∀ (sessionToken redirectURL key value : String),
      (NewRedirect sessionToken redirectURL : Redirect Customer).AddMetadata key value =
        .error "assignment to entry in nil map") ∧
    (∀ (key value : String),
      ({} : Payout Date).AddMetadata key value = .error "assignment to entry in nil map") ∧
    (NewSubscription 1000 "GBP" "monthly" "MD123" : Subscription Unit).AddMetadata "order" "42" =
      .error "assignment to entry in nil map" := by
  refine ⟨?_, ?_, ?_, rfl⟩
  · intro amount currency intervalUnit mandateID key value
    rfl
  · intro sessionToken redirectURL key value
    rfl
  · intro key value
    rfl

/-- C12: when the transport answers the request with a response whose status
is not 429, `makeRequest` returns what the decoder returns for that response
and the destination: the same error, the same destination, an error exactly
when the decoder gives one. The response is handed to the decoder once, and
the status is read for nothing else. -/
theorem C12_result_is_bind (env : Env Date Customer Meta) (c : Client)
    (path method : String) (body dst : Any Date Customer Meta) (w w1 : World)
    (req : Request) (resp : Response)
    (hreq : c.newRequest env path method body w = (.ok req, w1))
    (hdo : c.httpClient.Do req = .ok resp)
    (hstatus : resp.StatusCode ≠ 429) :
    (c.makeRequest env path method body dst w).err = (env.bind resp dst).2 ∧
    (c.makeRequest env path method body dst w).dst = (env.bind resp dst).1 ∧
    ((c.makeRequest env path method body dst w).err ≠ none ↔ (env.bind resp dst).2 ≠ none) ∧
    (c.makeRequest env path method body dst w).world.bound = w.bound ++ [resp] ∧
    (c.makeRequest env path method body dst w).world.sent = w.sent ++ [req] := by
  have hw := newRequest_world env c path method body w
  rw [hreq] at hw
  have hsent : w1.sent = w.sent := hw.1
  have hbound : w1.bound = w.bound := hw.2.1
  have hs : resp.StatusCode ≠ StatusTooManyRequests := hstatus
  have hout : c.makeRequest env path method body dst w =
      { err := (env.bind resp dst).2, dst := (env.bind resp dst).1,
        world := { w1 with sent := w1.sent ++ [req], bound := w1.bound ++ [resp] } } := by
    rw [makeRequest_of_newRequest_ok env c path method body dst w w1 req hreq, hdo]
    simp only [if_neg hs]
  rw [hout]
  refine ⟨rfl, rfl, Iff.rfl, ?_, ?_⟩
  · simp [hbound]
  · simp [hsent]

theorem C12_result_is_bind_witness :
    ({ liveClient with httpClient := brokenTransport } : Client).newRequest decodingEnv
        "payouts/PO123" "GET" .nil zeroWorld =
      (.ok { Method := "GET", URL := "https://api.gocardless.com/payouts/PO123", Body := [],
             Header := [("Authorization", "Bearer token"), ("Gocardless-Version", "2015-07-06"),
               ("Accept", "application/json"), ("Content-Type", "application/json")] },
        zeroWorld) ∧
    (500 : Int) ≠ 429 ∧
    (({ liveClient with httpClient := brokenTransport } : Client).makeRequest decodingEnv
        "payouts/PO123" "GET" .nil (.payoutWrapper {}) zeroWorld).err =
      (decodingEnv.bind { StatusCode := 500, Body := [123, 125] } (.payoutWrapper {})).2 ∧
    (decodingEnv.bind { StatusCode := 500, Body := [123, 125] } (.payoutWrapper {})).2 = none ∧
    (liveClient.makeRequest decodingEnv "payouts/PO123" "GET" .nil (.payoutWrapper {})
        zeroWorld).err =
      (decodingEnv.bind { StatusCode := 200, Body := [] } (.payoutWrapper {})).2 ∧
    (decodingEnv.bind { StatusCode := 200, Body := [] } (.payoutWrapper {})).2 =
      some (.other "*json.SyntaxError" "unexpected end of JSON input") :=
  ⟨rfl, by decide,
    (C12_result_is_bind decodingEnv { liveClient with httpClient := brokenTransport }
      "payouts/PO123" "GET" .nil (.payoutWrapper {}) zeroWorld zeroWorld _
      { StatusCode := 500, Body := [123, 125] } rfl rfl (by decide)).1,
    rfl,
    (C12_result_is_bind decodingEnv liveClient "payouts/PO123" "GET" .nil (.payoutWrapper {})
      zeroWorld zeroWorld _ { StatusCode := 200, Body := [] } rfl rfl (by decide)).1,
    rfl⟩

end

end Gocardless
